import Mathlib

/-!
# Verification of the tinyRacing server core

Shallow embedding of the race-simulation server (`server/src`), translated
from the Rust sources:

* `models/tire.rs`, `models/driver.rs`, `models/car.rs`, `models/team.rs`,
  `models/track.rs`, `models/weather.rs`, `models/event.rs` — data model;
* `models/race.rs` — AI pit decision, simulation tick (`RaceState::update`),
  ordering (`compare_cars`), finish detection (`update_race_finished`);
* `commands.rs` — the textual command dispatcher;
* `watchdog.rs` — the race watchdog (`RaceWatchdog::check_races`).

Embedding conventions:

* Rust `f32` is modelled as `ℚ` with exact arithmetic.  The one
  transcendental operation used by the tick (`f32::exp`, for the curvature
  factor) is threaded through as an explicit parameter `expF : ℚ → ℚ`; no
  property proved below depends on its values.
* Rust `u32`/`u64`/`usize` counters are modelled as `ℕ` (none of them is
  ever decremented below zero or overflowed by the modelled code paths;
  `pit_time_remaining` is only decremented under a positivity test).
* `HashMap<u32, Car>` is modelled as an association list
  `List (ℕ × Car)`; the source only ever inserts distinct keys, and
  theorems that need it carry a `Nodup` hypothesis on the keys.
  Iteration order of the Rust map is arbitrary; the list order stands
  for one such order.
* Functions that panic in Rust (indexing with a remainder-by-zero
  divisor) return `Option`; `none` models the panic.
* Database handles (`Arc<PgPool>`) carry no pure state; the field
  `db_pool: Option<Arc<PgPool>>` is modelled as a `Bool` recording
  presence. The asynchronous, fire-and-forget event mirror
  (`save_event_to_db`) has no effect on the race state and is dropped.
* `Uuid` identities are modelled as `String`.
-/

namespace TinyRacing

/-- `models/tire.rs`: `enum TireType`. -/
inductive TireType where
  | Soft
  | Medium
  | Hard
  | Intermediate
  | Wet
deriving DecidableEq

/-- `models/tire.rs`: `struct Tire`. -/
structure Tire where
  type_ : TireType
  wear : ℚ
deriving DecidableEq

/-- `models/driver.rs`: `enum DrivingStyle`. -/
inductive DrivingStyle where
  | Relax
  | Normal
  | Aggressive
deriving DecidableEq

/-- `models/driver.rs`: `struct Driver` (Uuid as String). -/
structure Driver where
  uid : Option String
  name : String
  skill_level : ℚ
  stamina : ℚ
  weather_tolerance : ℚ
  experience : ℚ
  consistency : ℚ
  focus : ℚ
  stress_level : ℚ
deriving DecidableEq

/-- `models/car.rs`: `enum CarStatus`. -/
inductive CarStatus where
  | Racing
  | Pit
  | Finished
  | Dnf
deriving DecidableEq

/-- `models/car.rs`: `struct CarStats`. -/
structure CarStats where
  handling : ℚ
  acceleration : ℚ
  top_speed : ℚ
  reliability : ℚ
  fuel_consumption : ℚ
  tire_wear : ℚ
deriving DecidableEq

/-- `models/team.rs`: `struct Team` (Uuid as String). -/
structure Team where
  uid : String
  number : ℕ
  name : String
  logo : String
  color : String
  pit_efficiency : ℚ
deriving DecidableEq

/-- `models/car.rs`: `struct Car`. -/
structure Car where
  uid : String
  number : ℕ
  team : Team
  driver : Driver
  stats : CarStats
  tire : Tire
  fuel : ℚ
  driving_style : DrivingStyle
  status : CarStatus
  race_position : ℕ
  lap : ℕ
  lap_percentage : ℚ
  total_distance : ℚ
  finished_time : ℕ
  base_performance : ℚ
  speed : ℚ
  pit_request : Bool
  target_tire : Option TireType
  target_fuel : Option ℚ
  pit_time_remaining : ℕ
  player_uuid : Option String
deriving DecidableEq

/-- `models/track.rs`: `struct TrackPoint`. -/
structure TrackPoint where
  x : ℚ
  y : ℚ
  curvature : ℚ
deriving DecidableEq

/-- `models/weather.rs`: `struct Weather`. -/
structure Weather where
  state_change_time : List (ℚ × ℚ)
deriving DecidableEq

/-- `models/track.rs`: `struct Track` (`uid: Option<Uuid>` as in the race
loader; absent from the struct in `track.rs` but set by `RaceState::empty`,
kept as an optional string). -/
structure Track where
  uid : Option String
  id : String
  name : String
  laps : ℕ
  lap_length_km : ℚ
  sampled_track : List TrackPoint
  weather : Weather
  wetness : ℚ
deriving DecidableEq

/-- `models/event.rs`: `enum EventType`. -/
inductive EventType where
  | StartRace
  | EndRace
  | PitRequest
  | PitCancel
  | PitStop
  | WeatherChange
  | Accident
  | CarFinished
  | Dnf
  | Other
deriving DecidableEq

/-- `models/event.rs`: `struct EventData` (Uuids as Strings). -/
structure EventData where
  car_number : Option ℕ
  car_id : Option String
  team_name : Option String
  team_id : Option String
  driver_name : Option String
  driver_id : Option String
  tire : Option String
  fuel : Option ℚ
  weather : Option String
  time_offset_seconds : ℚ
deriving DecidableEq

/-- `models/event.rs`: `struct Event`. -/
structure Event where
  id : ℕ
  description : String
  event_type : EventType
  data : EventData
deriving DecidableEq

/-- `models/race.rs`: `enum RaceRunState`. -/
inductive RaceRunState where
  | Paused
  | Running
  | LastLap
  | Finished
deriving DecidableEq

/-- `models/race.rs`: `struct RaceState`.  `cars: HashMap<u32, Car>` is an
association list keyed by car number; `race_id: Option<Uuid>` is an optional
string; `db_pool: Option<Arc<PgPool>>` is modelled by presence only. -/
structure RaceState where
  track : Track
  cars : List (ℕ × Car)
  run_state : RaceRunState
  tick_count : ℕ
  tick_duration_seconds : ℚ
  events : List Event
  race_id : Option String
  db_pool : Bool
deriving DecidableEq

/-- `models/race.rs`: `MAX_PARTICIPANTS`. -/
def MAX_PARTICIPANTS : ℕ := 5

/-- Debug rendering of a tire type, as Rust's `format!("{:?}", t)`. -/
def tireTypeDebug : TireType → String
  | .Soft => "Soft"
  | .Medium => "Medium"
  | .Hard => "Hard"
  | .Intermediate => "Intermediate"
  | .Wet => "Wet"

/-! ## Track point lookup (`models/track.rs`) -/

/-- Rust `f32::round`: round half away from zero. -/
def roundHalfAway (q : ℚ) : ℤ :=
  if 0 ≤ q then ⌊q + 1/2⌋ else -⌊-q + 1/2⌋

/-- `Track::get_track_point_at_distance`.  The source computes
`(lap_ratio * len).round() as usize` and indexes `sampled_track[index % len]`;
on an empty `sampled_track` the remainder-by-zero panics, modelled as `none`.
The `as usize` cast saturates negatives at zero, as `Int.toNat` does. -/
def Track.get_track_point_at_distance (t : Track) (lap_ratio : ℚ) : Option TrackPoint :=
  let len := t.sampled_track.length
  let index := (roundHalfAway (lap_ratio * len)).toNat
  if h : 0 < len then
    some (t.sampled_track.get ⟨index % len, Nat.mod_lt index h⟩)
  else
    none

/-! ## Weather timeline (`models/weather.rs`) -/

/-- The pairwise-interpolation loop of `Weather::get_state_at_time`
(`for i in 0..len-1 { ... }` with the final `last().unwrap().1` fallback). -/
def weatherInterp : List (ℚ × ℚ) → ℚ → ℚ
  | (t1, s1) :: (t2, s2) :: rest, time =>
      if t1 ≤ time ∧ time ≤ t2 then
        s1 + (s2 - s1) * ((time - t1) / (t2 - t1))
      else
        weatherInterp ((t2, s2) :: rest) time
  | [(_, s1)], _ => s1
  | [], _ => 1/2

/-- `Weather::get_state_at_time`. -/
def Weather.get_state_at_time (w : Weather) (time : ℚ) : ℚ :=
  match h : w.state_change_time with
  | [] => 1/2
  | (t0, s0) :: rest =>
      if time ≤ t0 then s0
      else
        let last := ((t0, s0) :: rest).getLast (by simp)
        if time ≥ last.1 then last.2
        else weatherInterp ((t0, s0) :: rest) time

/-! ## Car speed model (`models/car.rs`) -/

/-- `Car::acceleration`. -/
def Car.accel (car : Car) : ℚ :=
  let base_accel := 5 + car.stats.acceleration * 10
  let driver_skill_factor := 1 + car.driver.skill_level * (0.1 : ℚ)
  let driving_style_factor : ℚ :=
    match car.driving_style with
    | .Relax => 0.95
    | .Normal => 1
    | .Aggressive => 1.05
  base_accel * driver_skill_factor * driving_style_factor

/-- `Car::max_speed`. -/
def Car.max_speed (car : Car) : ℚ :=
  if car.status = CarStatus.Pit then 30
  else if car.status = CarStatus.Finished ∨ car.status = CarStatus.Dnf then 0
  else
    let base_top_speed := 200 + car.stats.top_speed * 200
    let tire_type_factor : ℚ :=
      match car.tire.type_ with
      | .Soft => 1.05
      | .Medium => 1
      | .Hard => 0.95
      | .Intermediate => 0.9
      | .Wet => 0.8
    let tire_wear_factor := 1 - car.tire.wear / 1000
    let tire_factor := tire_type_factor * tire_wear_factor
    let fuel_factor := 1 - car.fuel / 1000
    let driving_style_factor : ℚ :=
      match car.driving_style with
      | .Relax => 0.95
      | .Normal => 1
      | .Aggressive => 1.05
    let driver_skill_factor := 1 + car.driver.skill_level * (0.05 : ℚ)
    let handling_factor := (0.98 : ℚ) + car.stats.handling * (0.04 : ℚ)
    base_top_speed * car.base_performance * tire_factor * fuel_factor
      * driving_style_factor * driver_skill_factor * handling_factor

/-! ## AI pit controller (`models/race.rs`) -/

/-- `models/race.rs`: `struct PitDecision`. -/
structure PitDecision where
  pit : Bool
  tire : Option TireType
  fuel : Option ℚ
deriving DecidableEq

/-- `models/race.rs`: `fn is_ai_player`. -/
def is_ai_player (player_uuid : Option String) : Bool :=
  player_uuid.isNone

/-- `models/race.rs`: `fn ai_pit_decision`. -/
def ai_pit_decision (car : Car) (track_wetness : ℚ) (total_laps : ℕ) : PitDecision :=
  if ¬ is_ai_player car.player_uuid ∨ car.pit_request ∨ car.status = CarStatus.Pit then
    { pit := false, tire := none, fuel := none }
  else
    let needs_pit₀ := decide (car.fuel < 99)
    let laps_remaining := total_laps - car.lap
    let best_tire : TireType :=
      if track_wetness > (0.65 : ℚ) then .Wet
      else if track_wetness > (0.2 : ℚ) then .Intermediate
      else if laps_remaining > 12 then .Hard
      else if laps_remaining > 6 then .Medium
      else .Soft
    let wet_mismatch :=
      ((best_tire = .Intermediate ∨ best_tire = .Wet)
          ∧ (car.tire.type_ = .Soft ∨ car.tire.type_ = .Medium ∨ car.tire.type_ = .Hard))
        ∨ ((car.tire.type_ = .Intermediate ∨ car.tire.type_ = .Wet)
          ∧ (best_tire = .Soft ∨ best_tire = .Medium ∨ best_tire = .Hard))
    let needs_pit := needs_pit₀ || decide wet_mismatch
    if needs_pit then
      { pit := true, tire := some best_tire, fuel := some 100 }
    else
      { pit := false, tire := none, fuel := none }

/-! ## Command dispatcher (`commands.rs`) -/

/-!
The string primitives used by the dispatcher (`trim`, `split_whitespace`,
`to_lowercase`, `str::parse`) are implemented structurally over the
character list of the string (kernel-evaluable; the core library versions
operate on byte positions).  `to_lowercase` is modelled on ASCII, which
covers every keyword the dispatcher compares against.
-/

/-- Rust `str::trim`: drop whitespace from both ends. -/
def trimString (s : String) : String :=
  String.mk (((s.data.dropWhile Char.isWhitespace).reverse.dropWhile
    Char.isWhitespace).reverse)

/-- Rust `str::to_lowercase` (ASCII). -/
def lowerString (s : String) : String :=
  String.mk (s.data.map Char.toLower)

/-- Split a character list on whitespace runs, dropping empty pieces. -/
def splitWsAux : List Char → List Char → List String
  | [], acc => if acc = [] then [] else [String.mk acc.reverse]
  | c :: cs, acc =>
    if c.isWhitespace then
      (if acc = [] then [] else [String.mk acc.reverse]) ++ splitWsAux cs []
    else splitWsAux cs (c :: acc)

/-- Rust `str::split_whitespace`: split on whitespace runs, dropping empty
pieces. -/
def splitWhitespace (s : String) : List String :=
  splitWsAux s.data []

/-- Digits of a non-empty all-digit character list as a value. -/
def digitsVal (l : List Char) : Option ℕ :=
  if l = [] then none
  else l.foldl (fun acc c =>
    acc.bind (fun a => if c.isDigit then some (a * 10 + (c.toNat - 48)) else none))
    (some 0)

/-- Digits of a numeral string as a value, `none` if empty or non-digit. -/
def digitsToNat (s : String) : Option ℕ := digitsVal s.data

/-- Rust `str::parse::<u32>`: optional leading `+`, then a non-empty digit
string, value within `u32` range. -/
def parseU32 (s : String) : Option ℕ :=
  let body : List Char :=
    match s.data with
    | '+' :: rest => rest
    | l => l
  match digitsVal body with
  | some n => if n < 2 ^ 32 then some n else none
  | none => none

/-- Split a character list on a separator character (as `str::split`). -/
def splitOnChar (sep : Char) : List Char → List (List Char)
  | [] => [[]]
  | c :: cs =>
    if c = sep then [] :: splitOnChar sep cs
    else
      match splitOnChar sep cs with
      | h :: t => (c :: h) :: t
      | [] => [[c]]

/-- Rust `str::parse::<f32>` restricted to finite decimal numerals:
optional sign, then `digits`, `digits.digits`, `digits.` or `.digits`,
with an optional decimal exponent.  The special forms `inf`/`infinity`/`nan`
(and any string this parser rejects but Rust accepts) all fail the
`0.0 <= fuel <= 100.0` range guard in `handle_pit_command` exactly as a
parse failure does, so the dispatcher's observable behaviour agrees. -/
def parseF32 (s : String) : Option ℚ :=
  let (sign, rest) :=
    match s.data with
    | '-' :: r => ((-1 : ℚ), r)
    | '+' :: r => ((1 : ℚ), r)
    | r => ((1 : ℚ), r)
  let (mantissa, expo) :=
    match splitOnChar 'e' rest with
    | [m, e] => (m, some e)
    | _ =>
      match splitOnChar 'E' rest with
      | [m, e] => (m, some e)
      | _ => (rest, none)
  let mantVal : Option ℚ :=
    match splitOnChar '.' mantissa with
    | [intPart] => (digitsVal intPart).map (fun n => (n : ℚ))
    | [intPart, fracPart] =>
        if intPart = [] ∧ fracPart = [] then none
        else if fracPart = [] then (digitsVal intPart).map (fun n => (n : ℚ))
        else if intPart = [] then
          (digitsVal fracPart).map (fun f => (f : ℚ) / 10 ^ fracPart.length)
        else
          match digitsVal intPart, digitsVal fracPart with
          | some n, some f => some ((n : ℚ) + (f : ℚ) / 10 ^ fracPart.length)
          | _, _ => none
    | _ => none
  let expVal : Option ℤ :=
    match expo with
    | none => some 0
    | some e =>
        let (esign, ebody) :=
          match e with
          | '-' :: r => ((-1 : ℤ), r)
          | '+' :: r => ((1 : ℤ), r)
          | r => ((1 : ℤ), r)
        (digitsVal ebody).map (fun n => esign * n)
  match mantVal, expVal with
  | some m, some ex => some (sign * m * (10 : ℚ) ^ ex)
  | _, _ => none

/-- Replace the car stored under key `num` (Rust `cars.get_mut(&num)`
followed by a field update; keys are unique in the source map, so mapping
over every matching entry is equivalent). -/
def modifyCar (cars : List (ℕ × Car)) (num : ℕ) (f : Car → Car) : List (ℕ × Car) :=
  cars.map fun kc => if kc.1 = num then (kc.1, f kc.2) else kc

/-- Association-list lookup, Rust `cars.get(&num)`. -/
def lookupCar (cars : List (ℕ × Car)) (num : ℕ) : Option Car :=
  (cars.find? (fun kc => kc.1 = num)).map Prod.snd

/-- The "Process tire type if provided" block of `handle_pit_command`:
`some target_tire` on success, `none` for the invalid-tire early return. -/
def parseTireArg : Option String → Option (Option TireType)
  | some tire_str =>
    match lowerString tire_str with
    | "soft" => some (some TireType.Soft)
    | "medium" => some (some TireType.Medium)
    | "hard" => some (some TireType.Hard)
    | "intermediate" => some (some TireType.Intermediate)
    | "inter" => some (some TireType.Intermediate)
    | "wet" => some (some TireType.Wet)
    | _ => none
  | none => some none

/-- The "Process fuel level if provided" block of `handle_pit_command`:
`some target_fuel` on success, `none` for the parse-or-range early return
(`Ok(fuel) if fuel >= 0.0 && fuel <= 100.0`). -/
def parseFuelArg : Option String → Option (Option ℚ)
  | some fuel_str =>
    match parseF32 fuel_str with
    | some fuel => if 0 ≤ fuel ∧ fuel ≤ 100 then some (some fuel) else none
    | none => none
  | none => some none

/-- `commands.rs`: `fn handle_pit_command`.  Returns the updated state and
the messages pushed; error paths return the state untouched. -/
def handle_pit_command (car_num_str : String) (tire_str_opt : Option String)
    (fuel_str_opt : Option String) (s : RaceState) : RaceState × List String :=
  match parseU32 car_num_str with
  | none => (s, ["Invalid car number: " ++ car_num_str])
  | some car_num =>
    match lookupCar s.cars car_num with
    | none => (s, ["Car number " ++ toString car_num ++ " not found."])
    | some _ =>
      match parseTireArg tire_str_opt with
      | none =>
        (s, ["Invalid target tire type: " ++ tire_str_opt.getD ""])
      | some target_tire =>
        match parseFuelArg fuel_str_opt with
        | none =>
          (s, ["Invalid target fuel level: " ++ fuel_str_opt.getD "" ++ ". Must be 0-100."])
        | some target_fuel =>
          if target_tire.isNone ∧ target_fuel.isNone then
            (s, ["Pit stop request must specify at least tire change or refuel operation."])
          else
            let s' := { s with cars := modifyCar s.cars car_num (fun c =>
              { c with pit_request := true, target_tire := target_tire,
                       target_fuel := target_fuel }) }
            let tire_msg :=
              match target_tire with
              | some tire => "Tire -> " ++ tireTypeDebug tire
              | none => "No tire change"
            let fuel_msg :=
              match target_fuel with
              | some fuel => "Fuel -> " ++ toString fuel ++ "%"
              | none => "No refuel"
            (s', ["Car " ++ toString car_num ++ " queued for pit stop: "
                    ++ tire_msg ++ ", " ++ fuel_msg])

/-- `commands.rs`: the arm bodies of `handle_command`, dispatching on the
whitespace-split parts of the trimmed command string. -/
def dispatchCommand (parts : List String) (trimmed : String) (s : RaceState) :
    RaceState × List String :=
  match parts with
  | ["start"] =>
      if s.run_state = RaceRunState.Paused then
        ({ s with run_state := RaceRunState.Running }, ["Race started!"])
      else
        (s, ["Race is already running or finished."])
  | ["pause"] =>
      if s.run_state = RaceRunState.Running then
        ({ s with run_state := RaceRunState.Paused }, ["Race paused."])
      else
        (s, ["Race is not running."])
  | ["stop"] =>
      ({ s with run_state := RaceRunState.Finished }, ["Race stopped/finished manually."])
  | ["order", car_num_str, style_str] =>
      match parseU32 car_num_str with
      | some car_num =>
        match lookupCar s.cars car_num with
        | some _ =>
          match lowerString style_str with
          | "dnf" =>
              let cars' := modifyCar s.cars car_num (fun c => { c with status := CarStatus.Dnf })
              ({ s with cars := cars' }, ["Car " ++ toString car_num ++ " set to DNF."])
          | "relax" =>
              let cars' := modifyCar s.cars car_num (fun c => { c with driving_style := DrivingStyle.Relax })
              ({ s with cars := cars' }, ["Car " ++ toString car_num ++ " driving style set to Relax."])
          | "normal" =>
              let cars' := modifyCar s.cars car_num (fun c => { c with driving_style := DrivingStyle.Normal })
              ({ s with cars := cars' }, ["Car " ++ toString car_num ++ " driving style set to Normal."])
          | "aggressive" =>
              let cars' := modifyCar s.cars car_num (fun c => { c with driving_style := DrivingStyle.Aggressive })
              ({ s with cars := cars' }, ["Car " ++ toString car_num ++ " driving style set to Aggressive."])
          | _ =>
              (s, ["Invalid driving style: " ++ style_str
                    ++ ". Use relax, normal, or aggressive."])
        | none => (s, ["Car number " ++ toString car_num ++ " not found."])
      | none => (s, ["Invalid car number: " ++ car_num_str])
  | ["pit", car_num_str, tire_str, "refuel", fuel_str] =>
      handle_pit_command car_num_str (some tire_str) (some fuel_str) s
  | ["pit", car_num_str, "refuel", fuel_str, tire_str] =>
      handle_pit_command car_num_str (some tire_str) (some fuel_str) s
  | ["pit", car_num_str, tire_str] =>
      handle_pit_command car_num_str (some tire_str) none s
  | ["pit", car_num_str, "refuel", fuel_str] =>
      handle_pit_command car_num_str none (some fuel_str) s
  | ["pit", _] =>
      (s, ["Invalid pit command. Use: pit <car_number> [soft/medium/hard/intermediate/wet] [refuel <0-100>]"])
  | _ => (s, ["Unknown command: " ++ trimmed])

/-- `commands.rs`: `fn handle_command`.  Returns the new state and the
joined result message (the source joins with the literal two-character
sequence `\\n`). -/
def handle_command (command_str : String) (s : RaceState) : RaceState × String :=
  let trimmed := trimString command_str
  let parts := splitWhitespace trimmed
  let (s', msgs) := dispatchCommand parts trimmed s
  (s', String.intercalate "\\n" msgs)

/-! ## Events (`models/race.rs`: `create_event`, event pushes) -/

/-- An event before its id is assigned.  The source reads `events.len()` at
each push for the id; pushes are sequential within a tick, so assigning
consecutive ids at append time produces the identical event list. -/
structure PendingEvent where
  event_type : EventType
  description : String
  data : EventData
deriving DecidableEq

/-- Rust `format!("{:.0}", f)` as used for fuel targets in event
descriptions. -/
def fmtF0 (q : ℚ) : String := toString (roundHalfAway q)

/-- `models/race.rs`: `fn create_event`, minus the id (assigned on append).
`driver_id: car.map(|c| c.driver.uid)` flattens the optional driver uid. -/
def create_pending (time : ℚ) (event_type : EventType) (description : String)
    (car : Option Car) : PendingEvent :=
  { event_type := event_type
    description := description
    data :=
      { car_number := car.map Car.number
        car_id := car.map Car.uid
        team_name := car.map (fun c => c.team.name)
        team_id := car.map (fun c => c.team.uid)
        driver_name := car.map (fun c => c.driver.name)
        driver_id := car.bind (fun c => c.driver.uid)
        tire := car.map (fun c => tireTypeDebug c.tire.type_)
        fuel := car.map Car.fuel
        weather := none
        time_offset_seconds := time } }

/-- Append pending events, assigning ids from the current length (the
source's `self.events.len() as u16` at each sequential push). -/
def appendPending (events : List Event) (pend : List PendingEvent) : List Event :=
  events ++ pend.enum.map (fun ip =>
    { id := events.length + ip.1, description := ip.2.description,
      event_type := ip.2.event_type, data := ip.2.data })

/-! ## The simulation tick (`models/race.rs`: `RaceState::update`) -/

/-- `RaceState::update_weather`, acting on the track (the only field it
mutates).  `time` is `tick_count * tick_duration_seconds` after the tick
increment, `dt` is `tick_duration_seconds`. -/
def update_weather_track (track : Track) (time : ℚ) (dt : ℚ) : Track :=
  let rain_chance := track.weather.get_state_at_time time
  let wetness_change : ℚ :=
    if rain_chance > (0.66 : ℚ) then
      let rate_at_100 := (1 : ℚ) / 180
      let rate_at_66 := (1 : ℚ) / 600
      let interpolation_factor := (rain_chance - (0.66 : ℚ)) / (1 - (0.66 : ℚ))
      let rate := rate_at_66 + (rate_at_100 - rate_at_66) * interpolation_factor
      rate * dt
    else if rain_chance < (0.5 : ℚ) then
      let rate_at_0 := -(1 : ℚ) / 60
      let rate_at_50 := -(1 : ℚ) / 600
      let interpolation_factor := rain_chance / (0.5 : ℚ)
      let rate := rate_at_0 + (rate_at_50 - rate_at_0) * interpolation_factor
      rate * dt
    else 0
  { track with wetness := min (max (track.wetness + wetness_change) 0) 1 }

/-- Curvature of the track sample at ratio `r`.  The `none` case is the
source's panic on an empty `sampled_track` (see `Track.get_track_point_at_distance`);
tick theorems carry a nonempty-track hypothesis, so the `0` default is never
exercised by them. -/
def trackCurvatureAt (track : Track) (r : ℚ) : ℚ :=
  match track.get_track_point_at_distance r with
  | some p => p.curvature
  | none => 0

/-- Lap completion: advance the lap counter and pull the percentage back
(`car.lap += 1; car.lap_percentage -= 1.0`). -/
def lapCompleteCar (car : Car) : Car :=
  { car with lap := car.lap + 1, lap_percentage := car.lap_percentage - 1 }

/-- Finish on the last lap (`lap_percentage = 0.0`, `Finished`,
`finished_time = tick`). -/
def lapFinishCar (tick : ℕ) (car1 : Car) : Car :=
  { car1 with lap_percentage := 0, status := CarStatus.Finished, finished_time := tick }

/-- Pit entry at a lap boundary (`Pit`, `lap_percentage = 0.0001`, clear the
request, `pit_time_remaining = 50`). -/
def pitEnterCar (c : Car) : Car :=
  { c with
    status := CarStatus.Pit
    lap_percentage := 0.0001
    pit_request := false
    pit_time_remaining := 50 }

/-- The pit-stop event pushed on pit entry. -/
def pitEnterEvent (tick : ℕ) (dt : ℚ) (c2 : Car) : PendingEvent :=
  create_pending ((tick : ℚ) * dt) EventType.PitStop
    ("Car " ++ toString c2.number ++ " enters pit stop: "
      ++ ((c2.target_tire.map tireTypeDebug).getD "No change") ++ " tires, "
      ++ ((c2.target_fuel.map fmtF0).getD "No refuel") ++ " fuel") (some c2)

/-- The car-finished event pushed on the last lap. -/
def finishEvent (tick : ℕ) (dt : ℚ) (nf : ℕ) (c : Car) : PendingEvent :=
  create_pending ((tick : ℚ) * dt) EventType.CarFinished
    ("Car " ++ toString c.number ++ " finished the race in position "
      ++ toString (nf + 1) ++ ".") (some c)

/-- The lap-completion loop of `RaceState::update`
(`while car.lap_percentage >= 1.0 { ... }`), recursing on an explicit lap
budget.  The loop guard requires `⌊lap_percentage⌋ ≥ 1`; each iteration
either leaves the loop (the pit and finish branches set the percentage to
`0.0001` resp. `0`, below the guard) or lowers `⌊lap_percentage⌋` by exactly
one, so with the budget `⌊lap_percentage⌋.toNat` of `lapLoop` the `0` budget
is only ever reached with the guard false, and the function computes exactly
the value of the source's `while` loop. -/
def lapLoopAux (laps : ℕ) (run_state : RaceRunState) (tick : ℕ) (dt : ℚ)
    (number_finished : ℕ) : ℕ → Car → Car × List PendingEvent
  | fuel + 1, car =>
    if 1 ≤ car.lap_percentage then
      let car1 : Car := lapCompleteCar car
      if run_state = RaceRunState.LastLap then
        let c : Car := lapFinishCar tick car1
        let evFin := finishEvent tick dt number_finished c
        if c.pit_request ∧ c.lap < laps then
          let c2 : Car := pitEnterCar c
          let r := lapLoopAux laps run_state tick dt number_finished fuel c2
          (r.1, evFin :: pitEnterEvent tick dt c2 :: r.2)
        else
          let r := lapLoopAux laps run_state tick dt number_finished fuel c
          (r.1, evFin :: r.2)
      else
        if car1.pit_request ∧ car1.lap < laps then
          let c2 : Car := pitEnterCar car1
          let r := lapLoopAux laps run_state tick dt number_finished fuel c2
          (r.1, pitEnterEvent tick dt c2 :: r.2)
        else
          lapLoopAux laps run_state tick dt number_finished fuel car1
    else (car, [])
  | 0, car => (car, [])

/-- The lap-completion loop at its lap budget (see `lapLoopAux`). -/
def lapLoop (laps : ℕ) (run_state : RaceRunState) (tick : ℕ) (dt : ℚ)
    (number_finished : ℕ) (car : Car) : Car × List PendingEvent :=
  lapLoopAux laps run_state tick dt number_finished (⌊car.lap_percentage⌋).toNat car

/-- The AI-input step of the Racing branch (`race.rs`: "Get AI input for
the car"): adopt the controller's pit decision, pushing a request event the
first time. -/
def aiStep (tick : ℕ) (dt : ℚ) (wetness : ℚ) (laps : ℕ) (car : Car) :
    Car × List PendingEvent :=
  let decision := ai_pit_decision car wetness laps
  if decision.pit then
    let was_requested := car.pit_request
    let car : Car := { car with
      pit_request := true
      target_fuel := decision.fuel
      target_tire := decision.tire }
    if was_requested then (car, [])
    else
      let tire_str := (decision.tire.map tireTypeDebug).getD "No change"
      let fuel_str := (decision.fuel.map fmtF0).getD "No refuel"
      (car, [create_pending ((tick : ℚ) * dt) EventType.PitRequest
        ("Car " ++ toString car.number ++ " (AI) requests pit stop: " ++ tire_str
          ++ " tires, " ++ fuel_str ++ " fuel") (some car)])
  else (car, [])

/-- The physics step of the Racing branch before lap completion: curvature
slow-down, ramp-up to max speed, distance advance. -/
def preLap (expF : ℚ → ℚ) (track : Track) (dt : ℚ) (car : Car) : Car :=
  let max_speed := car.max_speed
  let curvature := trackCurvatureAt track car.lap_percentage
  let curvature_factor := max (expF (-(4.62 : ℚ) * curvature)) (0.15 : ℚ)
  let max_speed := max_speed * curvature_factor
  let car : Car := { car with speed := min max_speed (car.speed + car.accel) }
  let distance_km := car.speed / 3600 * dt
  let distance_laps := distance_km / track.lap_length_km
  { car with lap_percentage := car.lap_percentage + distance_laps }

/-- The tail of the Racing branch after lap completion: fuel consumption,
the out-of-fuel Dnf check, tire wear, driver stress, total distance. -/
def tailStep (tick : ℕ) (dt : ℚ) (track : Track) (car : Car) :
    Car × List PendingEvent :=
  let base_fuel_rate := (0.0005 : ℚ) + car.stats.fuel_consumption * (0.15 : ℚ)
  let max_speed2 := car.max_speed
  let speed_factor := if 0 < max_speed2 then car.speed / max_speed2 else 0
  let fuel_consumption_rate := base_fuel_rate * max speed_factor 0
  let car : Car := { car with fuel := max (car.fuel - fuel_consumption_rate * dt) 0 }
  let (car, evs2) :=
    if car.fuel = 0 ∧ car.status = CarStatus.Racing then
      let c : Car := { car with
        status := CarStatus.Dnf
        finished_time := tick }
      (c, [create_pending ((tick : ℚ) * dt) EventType.Dnf
        ("Car " ++ toString c.number ++ " ran out of fuel!") (some c)])
    else (car, [])
  let base_tire_wear_rate := (0.0002 : ℚ) + car.stats.tire_wear * (0.08 : ℚ)
  let tire_wear_rate := base_tire_wear_rate * max speed_factor 0
  let tire_type_wear_multiplier : ℚ :=
    match car.tire.type_ with
    | .Soft => 1.5
    | .Medium => 1
    | .Hard => 0.7
    | .Intermediate => 1.2
    | .Wet => 1.3
  let car : Car := { car with tire := { car.tire with
    wear := min (car.tire.wear + tire_wear_rate * tire_type_wear_multiplier * dt) 100 } }
  let stress_change : ℚ :=
    match car.driving_style with
    | .Aggressive => (0.03 : ℚ) * (1 - car.driver.focus) * dt
    | .Normal => -(0.005 : ℚ) * car.driver.focus * dt
    | .Relax => -(0.015 : ℚ) * car.driver.focus * dt
  let car : Car := { car with driver := { car.driver with
    stress_level := min (max (car.driver.stress_level + stress_change) 0) 1 } }
  let car : Car :=
    if car.status = CarStatus.Racing ∨ car.status = CarStatus.Pit then
      { car with total_distance := ((car.lap : ℚ) + car.lap_percentage) * track.lap_length_km }
    else car
  (car, evs2)

/-- The per-car body of the tick loop in `RaceState::update`
(`for car in self.cars.values_mut() { ... }`): pit handling, AI input,
physics, lap completion, fuel, tire wear, stress, total distance.  Returns
the updated car and the events it pushed, in push order. -/
def processCar (expF : ℚ → ℚ) (track : Track) (run_state : RaceRunState)
    (tick : ℕ) (dt : ℚ) (number_finished : ℕ) (car : Car) : Car × List PendingEvent :=
  if car.status = CarStatus.Dnf ∨ car.status = CarStatus.Finished then
    let car := if car.status = CarStatus.Finished then
        { car with total_distance := (car.lap : ℚ) * track.lap_length_km }
      else car
    (car, [])
  else if car.status = CarStatus.Pit then
    -- Handle Pit Stop Logic
    let car : Car := { car with speed := 30 }
    if 0 < car.pit_time_remaining then
      ({ car with pit_time_remaining := car.pit_time_remaining - 1 }, [])
    else
      -- Pit stop complete: apply changes
      let car : Car :=
        match car.target_tire with
        | some new_tire_type =>
            { car with tire := { type_ := new_tire_type, wear := 0 }, target_tire := none }
        | none => car
      let car : Car :=
        match car.target_fuel with
        | some new_fuel_level =>
            { car with fuel := max (min new_fuel_level 100) car.fuel, target_fuel := none }
        | none => car
      ({ car with status := CarStatus.Racing }, [])
  else
    -- status = Racing: AI input, physics, lap completion, consumption
    let (car, evs0) := aiStep tick dt track.wetness track.laps car
    let car := preLap expF track dt car
    let (car, evs1) := lapLoop track.laps run_state tick dt number_finished car
    let (car, evs2) := tailStep tick dt track car
    (car, evs0 ++ evs1 ++ evs2)

/-- `models/race.rs`: `fn compare_cars`. -/
def compare_cars (a b : Car) : Ordering :=
  match a.status, b.status with
  | CarStatus.Finished, CarStatus.Finished =>
      if a.lap > b.lap then Ordering.lt
      else if a.lap < b.lap then Ordering.gt
      else compare a.finished_time b.finished_time
  | CarStatus.Dnf, CarStatus.Dnf => compare b.total_distance a.total_distance
  | _, CarStatus.Dnf => Ordering.lt
  | CarStatus.Dnf, _ => Ordering.gt
  | _, _ => compare b.total_distance a.total_distance

/-- `cars.get_mut(car_number)` + `race_position = index + 1` over the
enumerated sorted car numbers (`for (index, car_number) in
car_numbers.iter().enumerate()`). -/
def assignPositionsAux (cars : List (ℕ × Car)) : List ℕ → ℕ → List (ℕ × Car)
  | [], _ => cars
  | num :: rest, idx =>
      assignPositionsAux (modifyCar cars num (fun c => { c with race_position := idx + 1 }))
        rest (idx + 1)

/-- Race-position assignment over the sorted order. -/
def assignPositions (cars : List (ℕ × Car)) (ordered : List ℕ) : List (ℕ × Car) :=
  assignPositionsAux cars ordered 0

/-- Number of cars currently `Finished` (`filter ... count` before the tick
loop and before `update_race_finished`). -/
def countFinished (cars : List (ℕ × Car)) : ℕ :=
  (cars.filter (fun kc => kc.2.status = CarStatus.Finished)).length

/-- Accumulator of `fn update_race_finished`'s pass over the cars. -/
structure FinishScanResult where
  cars : List (ℕ × Car)
  race_finished : Bool
  someone_finished : Bool
  tot_done : ℕ
  events : List PendingEvent
deriving DecidableEq

/-- The per-car pass of `fn update_race_finished`: promote cars with
`lap >= laps` to Finished and accumulate the three flags, initial values
`race_finished = true`, `someone_finished = false`, `tot_done = 0`. -/
def finishScan (laps : ℕ) (lap_length_km : ℚ) (tick : ℕ) (dt : ℚ) (nf : ℕ) :
    List (ℕ × Car) → FinishScanResult
  | [] => { cars := [], race_finished := true, someone_finished := false,
            tot_done := 0, events := [] }
  | (k, car) :: rest =>
    let r := finishScan laps lap_length_km tick dt nf rest
    if car.status = CarStatus.Finished then
      { r with cars := (k, car) :: r.cars, someone_finished := true,
               tot_done := r.tot_done + 1 }
    else if laps ≤ car.lap then
      let c : Car := { car with
        status := CarStatus.Finished
        total_distance := (car.lap : ℚ) * lap_length_km
        finished_time := tick }
      let ev := create_pending ((tick : ℚ) * dt) EventType.CarFinished
        ("Car " ++ toString c.number ++ " finished the race in position "
          ++ toString (nf + 1) ++ ".") (some c)
      { r with cars := (k, c) :: r.cars, someone_finished := true,
               tot_done := r.tot_done + 1, events := ev :: r.events }
    else if car.status = CarStatus.Racing ∨ car.status = CarStatus.Pit then
      { r with cars := (k, car) :: r.cars, race_finished := false }
    else
      { r with cars := (k, car) :: r.cars, tot_done := r.tot_done + 1 }

/-- `models/race.rs`: `fn update_race_finished`. -/
def update_race_finished (s : RaceState) : RaceState :=
  let nf := countFinished s.cars
  let r := finishScan s.track.laps s.track.lap_length_km s.tick_count
    s.tick_duration_seconds nf s.cars
  let run_state :=
    if r.tot_done = s.cars.length then RaceRunState.Finished
    else if r.someone_finished then
      if r.race_finished then RaceRunState.Finished else RaceRunState.LastLap
    else s.run_state
  { s with
    cars := r.cars
    events := appendPending s.events r.events
    run_state := run_state }

/-- `models/race.rs`: `RaceState::update`, one simulation tick.  `expF`
stands for `f32::exp` (see the header).  The per-car loop is a map over the
association list: each car's update depends only on its own fields, the
track, the run state and the tick (events affect only ids, assigned on
append). -/
def RaceState.update (expF : ℚ → ℚ) (s : RaceState) : RaceState :=
  if s.run_state ≠ RaceRunState.Running ∧ s.run_state ≠ RaceRunState.LastLap then s
  else
    let tick := s.tick_count + 1
    let track := update_weather_track s.track ((tick : ℚ) * s.tick_duration_seconds)
      s.tick_duration_seconds
    let number_finished := countFinished s.cars
    let step := processCar expF track s.run_state tick s.tick_duration_seconds number_finished
    let cars1 := s.cars.map (fun kc => (kc.1, (step kc.2).1))
    let pend := (s.cars.map (fun kc => (step kc.2).2)).flatten
    let sortedCars := (cars1.map Prod.snd).mergeSort
      (fun a b => compare_cars a b ≠ Ordering.gt)
    let car_numbers := sortedCars.map Car.number
    let cars2 := assignPositions cars1 car_numbers
    let s1 : RaceState := { s with
      track := track
      tick_count := tick
      cars := cars2
      events := appendPending s.events pend }
    update_race_finished s1

/-- `models/race.rs`: `RaceState::empty`. -/
def RaceState.empty : RaceState :=
  { track := { uid := none, id := "", name := "No race loaded", laps := 0,
               lap_length_km := 0, sampled_track := [],
               weather := { state_change_time := [(0, 0)] }, wetness := 0 },
    cars := [], run_state := RaceRunState.Paused, tick_count := 0,
    tick_duration_seconds := 0.1, events := [], race_id := none, db_pool := false }

/-! ## Concrete sample values

Small concrete drivers, cars, tracks and states used by the witness and
counterexample theorems below. -/

/-- A concrete driver. -/
def sampleDriver : Driver :=
  { uid := none, name := "D", skill_level := 1/2, stamina := 1/2,
    weather_tolerance := 1/2, experience := 1/2, consistency := 1/2,
    focus := 1/2, stress_level := 0 }

/-- A concrete team. -/
def sampleTeam : Team :=
  { uid := "t", number := 1, name := "T", logo := "l", color := "c",
    pit_efficiency := 1/2 }

/-- Concrete car stats. -/
def sampleStats : CarStats :=
  { handling := 1/2, acceleration := 1/2, top_speed := 1/2, reliability := 1/2,
    fuel_consumption := 1/2, tire_wear := 1/2 }

/-- A concrete AI car in its starting configuration. -/
def sampleCar : Car :=
  { uid := "c", number := 1, team := sampleTeam, driver := sampleDriver,
    stats := sampleStats, tire := { type_ := TireType.Medium, wear := 0 },
    fuel := 100, driving_style := DrivingStyle.Normal, status := CarStatus.Racing,
    race_position := 1, lap := 0, lap_percentage := 0, total_distance := 0,
    finished_time := 0, base_performance := 1, speed := 0, pit_request := false,
    target_tire := none, target_fuel := none, pit_time_remaining := 0,
    player_uuid := none }

/-- A concrete two-sample track with distinct first and last points. -/
def sampleTrack : Track :=
  { uid := none, id := "tr", name := "Track", laps := 3, lap_length_km := 1,
    sampled_track := [{ x := 0, y := 0, curvature := 0 }, { x := 1, y := 1, curvature := 0 }],
    weather := { state_change_time := [(0, 0)] }, wetness := 0 }

/-- A concrete one-car running race state. -/
def sampleState : RaceState :=
  { track := sampleTrack, cars := [(1, sampleCar)], run_state := RaceRunState.Running,
    tick_count := 0, tick_duration_seconds := 0.1, events := [], race_id := none,
    db_pool := false }

/-- A stand-in for `f32::exp` in concrete evaluations (its values are
irrelevant to every property below). -/
def oneExp : ℚ → ℚ := fun _ => 1

/-! ## C7: the AI pit controller -/

/-- Wet-side tires (`{Intermediate, Wet}`) versus dry compounds. -/
def isWetTire : TireType → Bool
  | .Intermediate => true
  | .Wet => true
  | _ => false

/-- The best tire by weather and laps remaining, exactly as the claim words
it: `wetness > 0.65 ⇒ Wet`; `> 0.2 ⇒ Intermediate`; otherwise a dry compound
by `laps_remaining`: `> 12 ⇒ Hard`, `> 6 ⇒ Medium`, else `Soft`. -/
def specBestTire (wetness : ℚ) (laps_remaining : ℕ) : TireType :=
  if wetness > (0.65 : ℚ) then .Wet
  else if wetness > (0.2 : ℚ) then .Intermediate
  else if laps_remaining > 12 then .Hard
  else if laps_remaining > 6 then .Medium
  else .Soft

/-- The claim's description of the AI pit controller: no-pit when the car is
player-owned, already requesting a pit, or in Pit; otherwise pit when
`fuel < 99.0` or when the current tire and the best tire are on opposite
sides of the wet/dry divide, returning the best tire and fuel 100. -/
def specPitDecision (car : Car) (wetness : ℚ) (total_laps : ℕ) : PitDecision :=
  if car.player_uuid.isSome ∨ car.pit_request ∨ car.status = CarStatus.Pit then
    { pit := false, tire := none, fuel := none }
  else
    let best := specBestTire wetness (total_laps - car.lap)
    if car.fuel < 99 ∨ isWetTire car.tire.type_ ≠ isWetTire best then
      { pit := true, tire := some best, fuel := some 100 }
    else
      { pit := false, tire := none, fuel := none }

/-- The wet/dry mismatch disjunction of `ai_pit_decision` is the
opposite-sides test. -/
theorem wetMismatch_iff (best cur : TireType) :
    (((best = TireType.Intermediate ∨ best = TireType.Wet)
        ∧ (cur = TireType.Soft ∨ cur = TireType.Medium ∨ cur = TireType.Hard))
      ∨ ((cur = TireType.Intermediate ∨ cur = TireType.Wet)
        ∧ (best = TireType.Soft ∨ best = TireType.Medium ∨ best = TireType.Hard)))
      ↔ isWetTire cur ≠ isWetTire best := by
  cases best <;> cases cur <;> decide

/-- C7: `ai_pit_decision` is a pure function equal to the claim's
description: it returns no-pit for player-owned cars, cars with a pending
pit request, and cars in Pit; otherwise it pits exactly when fuel < 99.0 or
the current tire and the weather-and-laps best tire are on opposite sides of
the wet/dry divide, returning that best tire and a full-refuel target. -/
theorem ai_pit_decision_spec (car : Car) (wetness : ℚ) (total_laps : ℕ) :
    ai_pit_decision car wetness total_laps = specPitDecision car wetness total_laps := by
  unfold ai_pit_decision specPitDecision
  have hguard : (¬ is_ai_player car.player_uuid ∨ car.pit_request = true
      ∨ car.status = CarStatus.Pit)
      ↔ (car.player_uuid.isSome = true ∨ car.pit_request = true
      ∨ car.status = CarStatus.Pit) := by
    cases h : car.player_uuid <;> simp [is_ai_player, h]
  by_cases hg : ¬ is_ai_player car.player_uuid ∨ car.pit_request = true
      ∨ car.status = CarStatus.Pit
  · rw [if_pos hg, if_pos (hguard.mp hg)]
  · rw [if_neg hg, if_neg (fun h => hg (hguard.mpr h))]
    simp only [specBestTire]
    set best := if wetness > (0.65 : ℚ) then TireType.Wet
      else if wetness > (0.2 : ℚ) then TireType.Intermediate
      else if total_laps - car.lap > 12 then TireType.Hard
      else if total_laps - car.lap > 6 then TireType.Medium
      else TireType.Soft with hbest
    have hneed : (decide (car.fuel < 99)
        || decide (((best = TireType.Intermediate ∨ best = TireType.Wet)
          ∧ (car.tire.type_ = TireType.Soft ∨ car.tire.type_ = TireType.Medium
            ∨ car.tire.type_ = TireType.Hard))
        ∨ ((car.tire.type_ = TireType.Intermediate ∨ car.tire.type_ = TireType.Wet)
          ∧ (best = TireType.Soft ∨ best = TireType.Medium ∨ best = TireType.Hard)))) = true
        ↔ (car.fuel < 99 ∨ isWetTire car.tire.type_ ≠ isWetTire best) := by
      rw [Bool.or_eq_true, decide_eq_true_iff, decide_eq_true_iff,
        wetMismatch_iff best car.tire.type_]
    by_cases hn : car.fuel < 99 ∨ isWetTire car.tire.type_ ≠ isWetTire best
    · rw [if_pos (hneed.mpr hn), if_pos hn]
    · rw [if_neg (fun h => hn (hneed.mp h)), if_neg hn]

/-! ## C6 / C10: track point lookup -/

/-- C6 (counterexample): on a two-sample track with distinct endpoints,
`get_track_point_at_distance(1.0 - ε)` at the small `ε = 10⁻⁶` returns the
FIRST sample, not the last: the index `round((1-ε)·N) = N` wraps to `0`
modulo `N`. -/
theorem track_point_one_minus_eps_not_last :
    sampleTrack.get_track_point_at_distance (1 - 1/1000000)
        = some { x := 0, y := 0, curvature := 0 }
      ∧ sampleTrack.sampled_track.getLast? = some { x := 1, y := 1, curvature := 0 }
      ∧ ({ x := 0, y := 0, curvature := 0 } : TrackPoint)
        ≠ { x := 1, y := 1, curvature := 0 } := by
  refine ⟨?_, by decide, by decide⟩
  have h2 : roundHalfAway ((1 - 1/1000000) * ((2 : ℕ) : ℚ)) = 2 := by
    unfold roundHalfAway
    rw [if_pos (by norm_num), Int.floor_eq_iff]
    constructor <;> norm_num
  simp only [Track.get_track_point_at_distance,
    show sampleTrack.sampled_track.length = 2 from rfl, h2]
  norm_num
  rfl

/-- C6 (amended): with a non-empty `sampled_track`,
`get_track_point_at_distance(0.0)` equals the first sample, and for every
`ε` with `0 < ε ≤ 1/(2N)` the lookup at `1.0 − ε` also equals the FIRST
sample (the rounded index is `N`, which wraps to `0` modulo `N`), not the
last one. -/
theorem track_point_boundary (t : Track) (ht : t.sampled_track ≠ []) :
    t.get_track_point_at_distance 0 = t.sampled_track.head?
      ∧ ∀ ε : ℚ, 0 < ε → ε ≤ 1 / (2 * t.sampled_track.length) →
        t.get_track_point_at_distance (1 - ε) = t.sampled_track.head? := by
  have hlen : 0 < t.sampled_track.length := List.length_pos.mpr ht
  have hhead : ∀ hx : 0 % t.sampled_track.length < t.sampled_track.length,
      some (t.sampled_track.get ⟨0 % t.sampled_track.length, hx⟩)
        = t.sampled_track.head? := by
    intro hx
    rw [List.get_eq_getElem, List.head?_eq_getElem?]
    simp [List.getElem?_eq_getElem hlen]
  constructor
  · unfold Track.get_track_point_at_distance
    rw [dif_pos hlen]
    have h0 : roundHalfAway (0 * (t.sampled_track.length : ℚ)) = 0 := by
      unfold roundHalfAway
      norm_num
    simp only [h0, Int.toNat_zero]
    exact hhead _
  · intro ε hε hεle
    have hN : (0 : ℚ) < (t.sampled_track.length : ℚ) := by exact_mod_cast hlen
    have hεN : ε * (t.sampled_track.length : ℚ) ≤ 1 / 2 := by
      have h2N : (0 : ℚ) < 2 * (t.sampled_track.length : ℚ) := by linarith
      rw [le_div_iff₀ h2N] at hεle
      linarith
    have hεN0 : 0 < ε * (t.sampled_track.length : ℚ) := by positivity
    unfold Track.get_track_point_at_distance
    rw [dif_pos hlen]
    have hq : roundHalfAway ((1 - ε) * (t.sampled_track.length : ℚ))
        = (t.sampled_track.length : ℤ) := by
      unfold roundHalfAway
      have hN1 : (1 : ℚ) ≤ (t.sampled_track.length : ℚ) := by exact_mod_cast hlen
      have hring : (1 - ε) * (t.sampled_track.length : ℚ)
          = (t.sampled_track.length : ℚ) - ε * (t.sampled_track.length : ℚ) := by ring
      have hnn : (0 : ℚ) ≤ (1 - ε) * (t.sampled_track.length : ℚ) := by
        rw [hring]
        linarith
      rw [if_pos hnn, Int.floor_eq_iff]
      push_cast
      constructor <;> rw [hring] <;> linarith
    simp only [hq, Int.toNat_natCast, Nat.mod_self]
    exact hhead _

/-- C6 (amended) witness at the concrete two-sample track and `ε = 1/8`. -/
theorem track_point_boundary_witness :
    sampleTrack.get_track_point_at_distance 0 = sampleTrack.sampled_track.head?
      ∧ sampleTrack.get_track_point_at_distance (1 - 1/8)
        = sampleTrack.sampled_track.head? := by
  have h := track_point_boundary sampleTrack (by decide)
  exact ⟨h.1, h.2 (1/8) (by norm_num) (by norm_num [sampleTrack])⟩

/-- C10: with a non-empty `sampled_track` the lookup is total for every
non-negative ratio and returns an element of `sampled_track`; on an empty
`sampled_track` — such as the track built by `RaceState::empty` — every call
is the remainder-by-zero panic, modelled as `none`. -/
theorem track_point_total (t : Track) (r : ℚ) (hr : 0 ≤ r) (ht : t.sampled_track ≠ []) :
    (∃ p, t.get_track_point_at_distance r = some p ∧ p ∈ t.sampled_track)
      ∧ ∀ r' : ℚ, RaceState.empty.track.get_track_point_at_distance r' = none := by
  constructor
  · have hlen : 0 < t.sampled_track.length := List.length_pos.mpr ht
    unfold Track.get_track_point_at_distance
    rw [dif_pos hlen]
    exact ⟨_, rfl, List.get_mem _ _ _⟩
  · intro r'
    rfl

/-- C10 witness at the concrete two-sample track and ratio `1/2`. -/
theorem track_point_total_witness :
    (∃ p, sampleTrack.get_track_point_at_distance (1/2) = some p
        ∧ p ∈ sampleTrack.sampled_track)
      ∧ ∀ r' : ℚ, RaceState.empty.track.get_track_point_at_distance r' = none :=
  track_point_total sampleTrack (1/2) (by norm_num) (by decide)

/-! ## C2: the `nopit` command -/

/-- A concrete car with a pending pit request. -/
def pitRequestedCar : Car :=
  { sampleCar with
    pit_request := true
    target_tire := some TireType.Soft
    target_fuel := some 50 }

/-- A concrete state whose car 1 has a pending pit request. -/
def pitRequestedState : RaceState :=
  { sampleState with cars := [(1, pitRequestedCar)] }

unseal Rat.mul Rat.inv Rat.add Rat.sub Rat.ofScientific in
/-- C2: dispatching `nopit 1` against a state whose car 1 has a pending pit
request does NOT clear `pit_request`/`target_tire`/`target_fuel` — the
dispatcher has no `nopit` arm, reports `Unknown command: nopit 1`, and
leaves the state untouched (although the API pit-cancel handler in `api.rs`
sends exactly this command string). -/
theorem nopit_unknown_command :
    handle_command "nopit 1" pitRequestedState
        = (pitRequestedState, "Unknown command: nopit 1")
      ∧ (lookupCar pitRequestedState.cars 1).map Car.pit_request = some true
      ∧ (lookupCar pitRequestedState.cars 1).map Car.target_tire
        = some (some TireType.Soft) := by
  refine ⟨by decide, by decide, by decide⟩

/-! ## C8: error handling in the command dispatcher -/

/-- The `car_num`/`tire`/`fuel` argument extraction of the four mutating
`pit` arms of `handle_command`, in the source's match order. -/
def pitArgs (parts : List String) : Option (String × Option String × Option String) :=
  match parts with
  | ["pit", n, t, "refuel", f] => some (n, some t, some f)
  | ["pit", n, "refuel", f, t] => some (n, some t, some f)
  | ["pit", n, t] => some (n, some t, none)
  | ["pit", n, "refuel", f] => some (n, none, some f)
  | _ => none

/-- The car-number argument of the mutating arms. -/
def carNumArg (parts : List String) : Option String :=
  match parts with
  | ["order", n, _] => some n
  | _ => (pitArgs parts).map (fun x => x.1)

/-- Command shapes recognized by the dispatcher (every other shape falls to
the `Unknown command` arm; `pit <n>` falls to the usage-message arm). -/
def recognizedShape (parts : List String) : Prop :=
  parts = ["start"] ∨ parts = ["pause"] ∨ parts = ["stop"]
    ∨ (∃ n st, parts = ["order", n, st])
    ∨ (pitArgs parts).isSome = true
    ∨ (∃ n, parts = ["pit", n])

/-- The error classes of the claim, phrased on the dispatcher's parse of the
trimmed, whitespace-split command: an unknown command shape, a known shape
naming an unknown car number, a known shape whose number does not parse, or
a fuel value outside `[0, 100]`. -/
def commandErrorInput (s : RaceState) (command_str : String) : Prop :=
  let parts := splitWhitespace (trimString command_str)
  ¬ recognizedShape parts
    ∨ (∃ n k, carNumArg parts = some n ∧ parseU32 n = some k ∧ lookupCar s.cars k = none)
    ∨ (∃ n, carNumArg parts = some n ∧ parseU32 n = none)
    ∨ (∃ a f, pitArgs parts = some a ∧ a.2.2 = some f ∧ parseF32 f = none)
    ∨ (∃ a f v, pitArgs parts = some a ∧ a.2.2 = some f ∧ parseF32 f = some v
        ∧ (v < 0 ∨ 100 < v))

/-- A string with a non-empty prefix is non-empty. -/
theorem append_ne_empty_left (a b : String) (ha : a ≠ "") : a ++ b ≠ "" := by
  intro h
  have hlen := congrArg String.length h
  rw [String.length_append] at hlen
  have ha' : 0 < a.length := by
    cases hd : a.data with
    | nil => exact absurd (by cases a; simp_all) ha
    | cons c cs => simp [String.length, hd]
  simp at hlen
  omega

/-- A non-`none` message helper: each diagnostic of `handle_pit_command` is
non-empty. -/
theorem handle_pit_command_errors (car_num_str : String)
    (tire_str_opt fuel_str_opt : Option String) (s : RaceState)
    (herr : parseU32 car_num_str = none
      ∨ (∃ k, parseU32 car_num_str = some k ∧ lookupCar s.cars k = none)
      ∨ (∃ f, fuel_str_opt = some f ∧ parseF32 f = none)
      ∨ (∃ f v, fuel_str_opt = some f ∧ parseF32 f = some v ∧ (v < 0 ∨ 100 < v))) :
    (handle_pit_command car_num_str tire_str_opt fuel_str_opt s).1 = s
      ∧ ∃ m, (handle_pit_command car_num_str tire_str_opt fuel_str_opt s).2 = [m]
        ∧ m ≠ "" := by
  have hmem : ∀ (x : RaceState) (msg : String), msg ≠ "" →
      (x, [msg]).1 = x ∧ ∃ m, (x, [msg]).2 = [m] ∧ m ≠ "" := by
    intro x msg hmsg
    exact ⟨rfl, msg, rfl, hmsg⟩
  unfold handle_pit_command
  split
  · exact hmem _ _ (append_ne_empty_left _ _ (by decide))
  case _ car_num hparse =>
    split
    · exact hmem _ _ (append_ne_empty_left _ _ (append_ne_empty_left _ _ (by decide)))
    case _ car hlook =>
      split
      · exact hmem _ _ (append_ne_empty_left _ _ (by decide))
      case _ target_tire htire =>
        split
        · exact hmem _ _ (append_ne_empty_left _ _ (append_ne_empty_left _ _ (by decide)))
        case _ target_fuel hfuel =>
          split
          · exact hmem _ _ (by decide)
          · -- the mutating path is incompatible with every error class
            exfalso
            rcases herr with h | ⟨k, hk, hlk⟩ | ⟨f, hf, hpf⟩ | ⟨f, v, hf, hpf, hv⟩
            · rw [h] at hparse
              exact Option.noConfusion hparse
            · rw [hk] at hparse
              cases hparse
              rw [hlk] at hlook
              exact Option.noConfusion hlook
            · subst hf
              simp only [parseFuelArg, hpf] at hfuel
              exact Option.noConfusion hfuel
            · subst hf
              simp only [parseFuelArg, hpf] at hfuel
              rcases hv with hv | hv
              · rw [if_neg (fun hx => absurd hx.1 (not_le.mpr hv))] at hfuel
                exact Option.noConfusion hfuel
              · rw [if_neg (fun hx => absurd hx.2 (not_le.mpr hv))] at hfuel
                exact Option.noConfusion hfuel

/-- `pitArgs` on the first five-argument pit shape. -/
theorem pitArgs_eq1 (c t f : String) :
    pitArgs ["pit", c, t, "refuel", f] = some (c, some t, some f) := by
  unfold pitArgs
  split
  · rename_i heq
    simp only [List.cons.injEq, and_true] at heq
    obtain ⟨-, h1, h2, -, h3⟩ := heq
    subst h1; subst h2; subst h3; rfl
  all_goals rename_i hne1 heq
  all_goals first
    | (exact absurd rfl (by simp_all))
    | (simp only [List.cons.injEq, and_true] at heq; exact absurd heq (by simp_all))

/-- `pitArgs` on the second five-argument pit shape (the first shape takes
precedence when the fourth word is `refuel`). -/
theorem pitArgs_eq2 (c f t : String) (hf : f ≠ "refuel") :
    pitArgs ["pit", c, "refuel", f, t] = some (c, some t, some f) := by
  unfold pitArgs
  split
  · rename_i heq
    simp only [List.cons.injEq, and_true] at heq
    exact absurd heq.2.2.2.1 hf
  · rename_i hne heq
    simp only [List.cons.injEq, and_true, true_and] at heq
    obtain ⟨h1, h2, h3⟩ := heq
    subst h1; subst h2; subst h3; rfl
  case h_3 => rename_i hne1 hne2 heq; simp at heq
  case h_4 => rename_i hne1 hne2 hne3 heq; simp at heq
  case h_5 =>
    exfalso
    solve_by_elim

/-- `pitArgs` on the three-argument pit shape. -/
theorem pitArgs_eq3 (c t : String) :
    pitArgs ["pit", c, t] = some (c, some t, none) := by
  unfold pitArgs
  split
  case h_1 => rename_i heq; simp at heq
  case h_2 => rename_i hne heq; simp at heq
  case h_3 =>
    rename_i hne1 hne2 heq
    simp only [List.cons.injEq, and_true, true_and] at heq
    obtain ⟨h1, h2⟩ := heq
    subst h1; subst h2; rfl
  case h_4 => rename_i hne1 hne2 hne3 heq; simp at heq
  case h_5 =>
    exfalso
    solve_by_elim

/-- `pitArgs` on the four-argument pit shape. -/
theorem pitArgs_eq4 (c f : String) :
    pitArgs ["pit", c, "refuel", f] = some (c, none, some f) := by
  unfold pitArgs
  split
  case h_1 => rename_i heq; simp at heq
  case h_2 => rename_i hne heq; simp at heq
  case h_3 => rename_i hne1 hne2 heq; simp at heq
  case h_4 =>
    rename_i hne1 hne2 hne3 heq
    simp only [List.cons.injEq, and_true, true_and] at heq
    obtain ⟨h1, h2⟩ := heq
    subst h1; subst h2; rfl
  case h_5 =>
    exfalso
    solve_by_elim

/-- `carNumArg` on the `order` shape. -/
theorem carNumArg_order (a b : String) : carNumArg ["order", a, b] = some a := rfl

/-- `carNumArg` falls through to `pitArgs` on any `pit`-headed shape. -/
theorem carNumArg_pit (rest : List String) :
    carNumArg ("pit" :: rest) = (pitArgs ("pit" :: rest)).map (fun x => x.1) := by
  unfold carNumArg
  split
  · rename_i heq
    simp at heq
  · rfl

/-- The dispatcher arms on any of the claim's error inputs: no mutation and
a single non-empty diagnostic. -/
theorem dispatch_errors (parts : List String) (trimmed : String) (s : RaceState)
    (herr : ¬ recognizedShape parts
      ∨ (∃ n k, carNumArg parts = some n ∧ parseU32 n = some k ∧ lookupCar s.cars k = none)
      ∨ (∃ n, carNumArg parts = some n ∧ parseU32 n = none)
      ∨ (∃ a f, pitArgs parts = some a ∧ a.2.2 = some f ∧ parseF32 f = none)
      ∨ (∃ a f v, pitArgs parts = some a ∧ a.2.2 = some f ∧ parseF32 f = some v
          ∧ (v < 0 ∨ 100 < v))) :
    (dispatchCommand parts trimmed s).1 = s
      ∧ ∃ m, (dispatchCommand parts trimmed s).2 = [m] ∧ m ≠ "" := by
  have hmem : ∀ (x : RaceState) (msg : String), msg ≠ "" →
      (x, [msg]).1 = x ∧ ∃ m, (x, [msg]).2 = [m] ∧ m ≠ "" := by
    intro x msg hmsg
    exact ⟨rfl, msg, rfl, hmsg⟩
  -- refute the error classes on shapes with no car/pit arguments
  have hnone : ∀ ps : List String, carNumArg ps = none → pitArgs ps = none →
      recognizedShape ps →
      (¬ recognizedShape ps
        ∨ (∃ n k, carNumArg ps = some n ∧ parseU32 n = some k ∧ lookupCar s.cars k = none)
        ∨ (∃ n, carNumArg ps = some n ∧ parseU32 n = none)
        ∨ (∃ a f, pitArgs ps = some a ∧ a.2.2 = some f ∧ parseF32 f = none)
        ∨ (∃ a f v, pitArgs ps = some a ∧ a.2.2 = some f ∧ parseF32 f = some v
            ∧ (v < 0 ∨ 100 < v))) → False := by
    intro ps hc hp hrec herr'
    rcases herr' with h | ⟨n, k, hn, _, _⟩ | ⟨n, hn, _⟩ | ⟨a, f, ha, _, _⟩
      | ⟨a, f, v, ha, _, _, _⟩
    · exact h hrec
    · rw [hc] at hn; exact Option.noConfusion hn
    · rw [hc] at hn; exact Option.noConfusion hn
    · rw [hp] at ha; exact Option.noConfusion ha
    · rw [hp] at ha; exact Option.noConfusion ha
  -- convert the error classes to `handle_pit_command_errors` form, given the
  -- values of `pitArgs` on the current shape
  have hpit : ∀ (c : String) (t f : Option String) (ps : List String),
      pitArgs ps = some (c, t, f) →
      (¬ recognizedShape ps
        ∨ (∃ n k, carNumArg ps = some n ∧ parseU32 n = some k ∧ lookupCar s.cars k = none)
        ∨ (∃ n, carNumArg ps = some n ∧ parseU32 n = none)
        ∨ (∃ a f, pitArgs ps = some a ∧ a.2.2 = some f ∧ parseF32 f = none)
        ∨ (∃ a f v, pitArgs ps = some a ∧ a.2.2 = some f ∧ parseF32 f = some v
            ∧ (v < 0 ∨ 100 < v))) →
      (∃ rest, ps = "pit" :: rest) →
      (parseU32 c = none
        ∨ (∃ k, parseU32 c = some k ∧ lookupCar s.cars k = none)
        ∨ (∃ g, f = some g ∧ parseF32 g = none)
        ∨ (∃ g v, f = some g ∧ parseF32 g = some v ∧ (v < 0 ∨ 100 < v))) := by
    intro c t f ps hps herr' hshape
    obtain ⟨rest, hrest⟩ := hshape
    have hcn : carNumArg ps = some c := by
      rw [hrest] at hps ⊢
      rw [carNumArg_pit, hps]
      rfl
    rcases herr' with h | ⟨n, k, hn, hk, hlk⟩ | ⟨n, hn, hp⟩ | ⟨a, g, ha, haf, hpf⟩
      | ⟨a, g, v, ha, haf, hpf, hv⟩
    · exact absurd (Or.inr (Or.inr (Or.inr (Or.inr (Or.inl
        (by rw [hps]; rfl)))))) h
    · rw [hcn] at hn
      cases hn
      exact Or.inr (Or.inl ⟨k, hk, hlk⟩)
    · rw [hcn] at hn
      cases hn
      exact Or.inl hp
    · rw [hps] at ha
      cases ha
      exact Or.inr (Or.inr (Or.inl ⟨g, haf, hpf⟩))
    · rw [hps] at ha
      cases ha
      exact Or.inr (Or.inr (Or.inr ⟨g, v, haf, hpf, hv⟩))
  unfold dispatchCommand
  split
  · -- start
    split <;> exact absurd herr (hnone ["start"] rfl rfl (Or.inl rfl))
  · -- pause
    split <;> exact absurd herr (hnone ["pause"] rfl rfl (Or.inr (Or.inl rfl)))
  · -- stop
    exact absurd herr (hnone ["stop"] rfl rfl (Or.inr (Or.inr (Or.inl rfl))))
  case h_4 car_num_str style_str =>
    -- order
    split
    case h_1 car_num hparse =>
      split
      case h_1 car hlook =>
        have hfalse : False := by
          rcases herr with h | ⟨n, k, hn, hk, hlk⟩ | ⟨n, hn, hp⟩ | ⟨a, f, ha, _, _⟩
            | ⟨a, f, v, ha, _, _, _⟩
          · exact h (Or.inr (Or.inr (Or.inr (Or.inl ⟨car_num_str, style_str, rfl⟩))))
          · rw [carNumArg_order] at hn
            cases hn
            rw [hparse] at hk
            cases hk
            rw [hlook] at hlk
            exact Option.noConfusion hlk
          · rw [carNumArg_order] at hn
            cases hn
            rw [hparse] at hp
            exact Option.noConfusion hp
          · rw [show pitArgs ["order", car_num_str, style_str] = none from rfl] at ha
            exact Option.noConfusion ha
          · rw [show pitArgs ["order", car_num_str, style_str] = none from rfl] at ha
            exact Option.noConfusion ha
        split <;> exact absurd hfalse not_false
      case h_2 hlook =>
        exact hmem _ _ (append_ne_empty_left _ _ (append_ne_empty_left _ _ (by decide)))
    case h_2 hparse =>
      exact hmem _ _ (append_ne_empty_left _ _ (by decide))
  case h_5 car_num_str tire_str fuel_str =>
    refine handle_pit_command_errors _ _ _ _
      (hpit car_num_str (some tire_str) (some fuel_str) _ (pitArgs_eq1 _ _ _) herr
        ⟨_, rfl⟩)
  case h_6 car_num_str fuel_str tire_str hcond =>
    refine handle_pit_command_errors _ _ _ _
      (hpit car_num_str (some tire_str) (some fuel_str) _
        (pitArgs_eq2 _ _ _ (fun hh => hcond hh)) herr ⟨_, rfl⟩)
  case h_7 car_num_str tire_str =>
    refine handle_pit_command_errors _ _ _ _
      (hpit car_num_str (some tire_str) none _ (pitArgs_eq3 _ _) ?_ ⟨_, rfl⟩)
    rcases herr with h | h2 | h3 | ⟨a, f, ha, haf, hpf⟩ | ⟨a, f, v, ha, haf, hpf, hv⟩
    · exact Or.inl h
    · exact Or.inr (Or.inl h2)
    · exact Or.inr (Or.inr (Or.inl h3))
    · rw [pitArgs_eq3] at ha
      cases ha
      exact Option.noConfusion haf
    · rw [pitArgs_eq3] at ha
      cases ha
      exact Option.noConfusion haf
  case h_8 car_num_str fuel_str =>
    refine handle_pit_command_errors _ _ _ _
      (hpit car_num_str none (some fuel_str) _ (pitArgs_eq4 _ _) herr ⟨_, rfl⟩)
  case h_9 car_num_str =>
    exact hmem _ _ (by decide)
  case h_10 =>
    exact hmem _ _ (append_ne_empty_left _ _ (by decide))

/-- C8: any command string that is unknown, names an unknown car number,
contains an unparsable number, or gives a fuel value outside `[0,100]`,
makes `handle_command` return a non-empty diagnostic and leave the race
state unchanged. -/
theorem handle_command_errors (s : RaceState) (cmd : String)
    (herr : commandErrorInput s cmd) :
    (handle_command cmd s).1 = s ∧ (handle_command cmd s).2 ≠ "" := by
  have h := dispatch_errors (splitWhitespace (trimString cmd)) (trimString cmd) s herr
  obtain ⟨h1, m, hm, hne⟩ := h
  unfold handle_command
  constructor
  · exact h1
  · show String.intercalate "\\n" (dispatchCommand (splitWhitespace (trimString cmd))
      (trimString cmd) s).2 ≠ ""
    rw [hm]
    exact hne

unseal Rat.mul Rat.inv Rat.add Rat.sub Rat.ofScientific in
/-- C8 witness: `pit 1 soft refuel 200` (fuel out of range) on the concrete
one-car state: diagnostic returned, state unchanged. -/
theorem handle_command_errors_witness :
    (handle_command "pit 1 soft refuel 200" sampleState).1 = sampleState
      ∧ (handle_command "pit 1 soft refuel 200" sampleState).2 ≠ "" := by
  refine handle_command_errors sampleState "pit 1 soft refuel 200" ?_
  refine Or.inr (Or.inr (Or.inr (Or.inr ?_)))
  refine ⟨("1", some "soft", some "200"), "200", 200, ?_, rfl, ?_, Or.inr (by norm_num)⟩
  · decide
  · decide

/-! ## Race watchdog (`watchdog.rs`) -/

/-- The fields of a scheduled-race row that `check_races` consumes: identity
and status (`start_datetime` is consumed only inside the database queries,
abstracted below; Uuid as String). -/
structure SchedRace where
  id : String
  status : String
deriving DecidableEq

/-- The database operations used by `RaceWatchdog::check_races`
(`database/queries.rs`), abstracted as deterministic functions of a database
state `D`; `Except Unit` models `Result<_, sqlx::Error>`.
`load_scheduled_race` stands for `RaceState::load_scheduled_race`
(database + filesystem I/O). -/
structure WatchdogEnv (D : Type) where
  get_races_to_cancel : D → Except Unit (List SchedRace)
  update_race_status : D → String → String → Except Unit D
  get_races_to_mark_upcoming : D → Except Unit (List SchedRace)
  has_ongoing_race : D → Except Unit Bool
  get_races_to_start : D → Except Unit (List SchedRace)
  get_upcoming_races : D → Except Unit (List SchedRace)
  start_race_db : D → String → Except Unit D
  load_scheduled_race : D → String → Except Unit RaceState

/-- `RaceWatchdog::load_upcoming_race`: load the race, attach the pool
(`set_db_pool`), force `Paused`, and hand back the state that replaces the
current one. -/
def load_upcoming_race {D : Type} (env : WatchdogEnv D) (db : D) (race_id : String) :
    Except Unit RaceState :=
  match env.load_scheduled_race db race_id with
  | .error e => .error e
  | .ok new_race_state =>
      .ok { new_race_state with db_pool := true, run_state := RaceRunState.Paused }

/-- `RaceWatchdog::start_race`: load the race if it is not the one already
loaded, persist `ONGOING` (`tdb::start_race`), then dispatch the `start`
command. -/
def watchdog_start_race {D : Type} (env : WatchdogEnv D) (db : D) (rs : RaceState)
    (race_id : String) : Except Unit (D × RaceState) :=
  let race_already_loaded := rs.race_id = some race_id
  let loaded : Except Unit RaceState :=
    if race_already_loaded then .ok rs
    else
      match env.load_scheduled_race db race_id with
      | .error e => .error e
      | .ok new_race_state => .ok { new_race_state with db_pool := true }
  match loaded with
  | .error e => .error e
  | .ok rs1 =>
    match env.start_race_db db race_id with
    | .error e => .error e
    | .ok db' => .ok (db', (handle_command "start" rs1).1)

/-- The cancel loop of `check_races`: `update_race_status(.., "CANCELED")`
per race, counting successes and tolerating (logging) failures. -/
def cancelRaces {D : Type} (env : WatchdogEnv D) : List SchedRace → D → ℕ × D
  | [], db => (0, db)
  | race :: rest, db =>
    match env.update_race_status db race.id "CANCELED" with
    | .ok db' =>
        let r := cancelRaces env rest db'
        (r.1 + 1, r.2)
    | .error _ => cancelRaces env rest db

/-- The mark-upcoming loop of `check_races`: `update_race_status(..,
"UPCOMING")` per race, then `load_upcoming_race` on success (its failure is
only logged). -/
def markUpcoming {D : Type} (env : WatchdogEnv D) :
    List SchedRace → D → RaceState → ℕ × D × RaceState
  | [], db, rs => (0, db, rs)
  | race :: rest, db, rs =>
    match env.update_race_status db race.id "UPCOMING" with
    | .error _ => markUpcoming env rest db rs
    | .ok db' =>
      let rs' :=
        match load_upcoming_race env db' race.id with
        | .ok nrs => nrs
        | .error _ => rs
      let r := markUpcoming env rest db' rs'
      (r.1 + 1, r.2.1, r.2.2)

/-- `matches!(run_state, Running | LastLap)`: the in-memory
"race is running" check of `check_races`. -/
def isRunningState : RaceRunState → Bool
  | RaceRunState.Running => true
  | RaceRunState.LastLap => true
  | _ => false

/-- The start phase of `check_races`: if neither the durable check nor the
in-memory check reports a running race, start the first due race (a failed
start is logged and counted as zero). -/
def startPhase {D : Type} (env : WatchdogEnv D) (db2 : D) (rs2 : RaceState)
    (has_ongoing : Bool) (running : Bool) : Except Unit (ℕ × D × RaceState) :=
  if ¬has_ongoing ∧ ¬running then
    match env.get_races_to_start db2 with
    | .error e => .error e
    | .ok races_to_start =>
      match races_to_start.head? with
      | some race =>
        match watchdog_start_race env db2 rs2 race.id with
        | .ok dr => .ok (1, dr.1, dr.2)
        | .error _ => .ok (0, db2, rs2)
      | none => .ok (0, db2, rs2)
  else .ok (0, db2, rs2)

/-- The resynchronize-on-restart phase of `check_races`: when the in-memory
check (computed before the start phase) saw no running race, load the first
upcoming race if it is not the one already loaded. -/
def resyncPhase {D : Type} (env : WatchdogEnv D) (running : Bool) (db3 : D)
    (rs3 : RaceState) : Except Unit (D × RaceState) :=
  if ¬running then
    match env.get_upcoming_races db3 with
    | .error e => .error e
    | .ok upcoming_races =>
      match upcoming_races.head? with
      | some upcoming_race =>
        if rs3.race_id ≠ some upcoming_race.id then
          match load_upcoming_race env db3 upcoming_race.id with
          | .ok nrs => .ok (db3, nrs)
          | .error _ => .ok (db3, rs3)
        else .ok (db3, rs3)
      | none => .ok (db3, rs3)
  else .ok (db3, rs3)

/-- `RaceWatchdog::check_races`, one watchdog pass: cancel overdue races,
mark races upcoming, start at most one due race when neither the durable
`has_ongoing_race` check nor the in-memory `run_state` check reports a
running race, then resynchronize an unloaded upcoming race.  Returns the
`(started, upcoming, canceled)` counts with the final database and race
state; `.error` models a query failure propagated via `?`. -/
def check_races {D : Type} (env : WatchdogEnv D) (db : D) (rs : RaceState) :
    Except Unit ((ℕ × ℕ × ℕ) × D × RaceState) :=
  match env.get_races_to_cancel db with
  | .error e => .error e
  | .ok races_to_cancel =>
    let c := cancelRaces env races_to_cancel db
    match env.get_races_to_mark_upcoming c.2 with
    | .error e => .error e
    | .ok races_to_mark_upcoming =>
      let u := markUpcoming env races_to_mark_upcoming c.2 rs
      match env.has_ongoing_race u.2.1 with
      | .error e => .error e
      | .ok has_ongoing =>
        let race_state_is_running := isRunningState u.2.2.run_state
        match startPhase env u.2.1 u.2.2 has_ongoing race_state_is_running with
        | .error e => .error e
        | .ok sdr =>
          match resyncPhase env race_state_is_running sdr.2.1 sdr.2.2 with
          | .error e => .error e
          | .ok dr2 => .ok ((sdr.1, u.1, c.1), dr2.1, dr2.2)

/-! ## C1: the watchdog's single-race start guard -/

/-- The start phase starts at most one race, and only under the double
not-running guard. -/
theorem startPhase_guard {D : Type} (env : WatchdogEnv D) (db2 : D)
    (rs2 : RaceState) (has_ongoing running : Bool) (st : ℕ) (db3 : D)
    (rs3 : RaceState)
    (h : startPhase env db2 rs2 has_ongoing running = Except.ok (st, db3, rs3)) :
    st ≤ 1 ∧ (st = 1 → has_ongoing = false ∧ running = false) := by
  unfold startPhase at h
  split at h
  case isTrue hguard =>
    have hg : has_ongoing = false ∧ running = false := by
      rcases hguard with ⟨h1, h2⟩
      exact ⟨Bool.not_eq_true _ ▸ h1, Bool.not_eq_true _ ▸ h2⟩
    split at h
    · exact Except.noConfusion h
    split at h
    · split at h
      · cases h
        exact ⟨le_refl 1, fun _ => hg⟩
      · cases h
        exact ⟨by norm_num, fun hh => absurd hh (by norm_num)⟩
    · cases h
      exact ⟨by norm_num, fun hh => absurd hh (by norm_num)⟩
  case isFalse =>
    cases h
    exact ⟨by norm_num, fun hh => absurd hh (by norm_num)⟩

/-- C1: on any watchdog pass that completes (`check_races` returns `ok`),
at most one race is started, and a race is started only if, at the moment of
the check (after the cancel and mark-upcoming phases), the durable
`has_ongoing_race` check returned `false` AND the in-memory `run_state`
check saw neither `Running` nor `LastLap`. -/
theorem check_races_start_guard {D : Type} (env : WatchdogEnv D) (db : D)
    (rs : RaceState) (counts : ℕ × ℕ × ℕ) (db' : D) (rs' : RaceState)
    (h : check_races env db rs = Except.ok (counts, db', rs')) :
    counts.1 ≤ 1
      ∧ (counts.1 = 1 →
        ∃ cancels ups,
          env.get_races_to_cancel db = Except.ok cancels
            ∧ env.get_races_to_mark_upcoming (cancelRaces env cancels db).2
              = Except.ok ups
            ∧ env.has_ongoing_race
                (markUpcoming env ups (cancelRaces env cancels db).2 rs).2.1
              = Except.ok false
            ∧ (markUpcoming env ups (cancelRaces env cancels db).2 rs).2.2.run_state
              ≠ RaceRunState.Running
            ∧ (markUpcoming env ups (cancelRaces env cancels db).2 rs).2.2.run_state
              ≠ RaceRunState.LastLap) := by
  unfold check_races at h
  simp only [] at h
  split at h
  · exact Except.noConfusion h
  case h_2 cancels hcancels =>
    split at h
    · exact Except.noConfusion h
    case h_2 ups hups =>
      split at h
      · exact Except.noConfusion h
      case h_2 has_ongoing hong =>
        split at h
        · exact Except.noConfusion h
        case h_2 sdr hsdr =>
          split at h
          · exact Except.noConfusion h
          case h_2 dr2 hdr2 =>
            cases h
            obtain ⟨hle, himp⟩ := startPhase_guard env _ _ has_ongoing _ sdr.1
              sdr.2.1 sdr.2.2 (by rw [hsdr])
            refine ⟨hle, fun h1 => ?_⟩
            obtain ⟨hfalse, hrun⟩ := himp h1
            refine ⟨cancels, ups, hcancels, hups, hfalse ▸ hong, ?_, ?_⟩
            · intro hh
              rw [show isRunningState
                  (markUpcoming env ups (cancelRaces env cancels db).2 rs).2.2.run_state
                  = true from by rw [hh]; rfl] at hrun
              exact Bool.noConfusion hrun
            · intro hh
              rw [show isRunningState
                  (markUpcoming env ups (cancelRaces env cancels db).2 rs).2.2.run_state
                  = true from by rw [hh]; rfl] at hrun
              exact Bool.noConfusion hrun

/-- A concrete watchdog environment over a counter database: no races to
cancel or mark upcoming, no ongoing race, one due race `r1`. -/
def watchdogWitnessEnv : WatchdogEnv ℕ :=
  { get_races_to_cancel := fun _ => .ok []
    update_race_status := fun d _ _ => .ok d
    get_races_to_mark_upcoming := fun _ => .ok []
    has_ongoing_race := fun _ => .ok false
    get_races_to_start := fun _ => .ok [{ id := "r1", status := "UPCOMING" }]
    get_upcoming_races := fun _ => .ok []
    start_race_db := fun d _ => .ok (d + 1)
    load_scheduled_race := fun _ _ => .ok RaceState.empty }

/-- The race state after the witness pass started race `r1`. -/
def watchdogWitnessRs : RaceState :=
  { RaceState.empty with db_pool := true, run_state := RaceRunState.Running }

/-- C1 witness: the concrete pass starts exactly one race, and the guard
conditions are exhibited concretely. -/
theorem check_races_start_guard_witness :
    ((1, 0, 0) : ℕ × ℕ × ℕ).1 ≤ 1
      ∧ (((1, 0, 0) : ℕ × ℕ × ℕ).1 = 1 →
        ∃ cancels ups,
          watchdogWitnessEnv.get_races_to_cancel 0 = Except.ok cancels
            ∧ watchdogWitnessEnv.get_races_to_mark_upcoming
                (cancelRaces watchdogWitnessEnv cancels 0).2 = Except.ok ups
            ∧ watchdogWitnessEnv.has_ongoing_race
                (markUpcoming watchdogWitnessEnv ups
                  (cancelRaces watchdogWitnessEnv cancels 0).2 RaceState.empty).2.1
              = Except.ok false
            ∧ (markUpcoming watchdogWitnessEnv ups
                  (cancelRaces watchdogWitnessEnv cancels 0).2
                  RaceState.empty).2.2.run_state ≠ RaceRunState.Running
            ∧ (markUpcoming watchdogWitnessEnv ups
                  (cancelRaces watchdogWitnessEnv cancels 0).2
                  RaceState.empty).2.2.run_state ≠ RaceRunState.LastLap) :=
  check_races_start_guard watchdogWitnessEnv 0 RaceState.empty (1, 0, 0) 1
    watchdogWitnessRs rfl

/-! ## Simulation-tick helper lemmas (C3, C4, C5, C9) -/

/-- Unfolding keyed lookup one entry. -/
theorem lookupCar_cons (kc : ℕ × Car) (rest : List (ℕ × Car)) (n : ℕ) :
    lookupCar (kc :: rest) n = if kc.1 = n then some kc.2 else lookupCar rest n := by
  by_cases h : kc.1 = n
  · simp only [lookupCar, if_pos h]
    rw [List.find?_cons_of_pos _ (by simpa using h)]
    rfl
  · simp only [lookupCar, if_neg h]
    rw [List.find?_cons_of_neg _ (by simpa using h)]

/-- Keyed lookup after a value map. -/
theorem lookupCar_map (g : Car → Car) (cars : List (ℕ × Car)) (n : ℕ) :
    lookupCar (cars.map (fun kc => (kc.1, g kc.2))) n = (lookupCar cars n).map g := by
  induction cars with
  | nil => rfl
  | cons kc rest ih =>
    rw [List.map_cons, lookupCar_cons, lookupCar_cons]
    by_cases h : kc.1 = n
    · rw [if_pos h, if_pos h]
      rfl
    · rw [if_neg h, if_neg h, ih]

/-- `modifyCar` unfolded one entry. -/
theorem modifyCar_cons (kc : ℕ × Car) (rest : List (ℕ × Car)) (m : ℕ) (f : Car → Car) :
    modifyCar (kc :: rest) m f
      = (if kc.1 = m then (kc.1, f kc.2) else kc) :: modifyCar rest m f := rfl

/-- Keyed lookup after `modifyCar`. -/
theorem lookupCar_modify (f : Car → Car) (cars : List (ℕ × Car)) (m n : ℕ) :
    lookupCar (modifyCar cars m f) n
      = if n = m then (lookupCar cars n).map f else lookupCar cars n := by
  induction cars with
  | nil => simp [lookupCar, modifyCar]
  | cons kc rest ih =>
    rw [modifyCar_cons]
    by_cases hkm : kc.1 = m
    · subst hkm
      by_cases hkn : kc.1 = n
      · subst hkn
        simp [lookupCar_cons]
      · simp [lookupCar_cons, hkn, Ne.symm hkn, ih]
    · by_cases hkn : kc.1 = n
      · subst hkn
        simp [lookupCar_cons, hkm, Ne.symm hkm]
      · simp [lookupCar_cons, hkm, hkn, ih]

/-- Position assignment only rewrites `race_position`. -/
theorem assignAux_lookup (ordered : List ℕ) (i : ℕ) (cars : List (ℕ × Car))
    (n : ℕ) (c : Car) (hc : lookupCar cars n = some c) :
    ∃ p, lookupCar (assignPositionsAux cars ordered i) n
      = some { c with race_position := p } := by
  induction ordered generalizing i cars c with
  | nil =>
    exact ⟨c.race_position, by simpa [assignPositionsAux] using hc⟩
  | cons num rest ih =>
    simp only [assignPositionsAux]
    by_cases hn : n = num
    · have hc' : lookupCar (modifyCar cars num (fun cc => { cc with race_position := i + 1 })) n = some { c with race_position := i + 1 } := by
        rw [lookupCar_modify, if_pos hn, hc]
        rfl
      obtain ⟨p, hp⟩ := ih (i + 1) _ _ hc'
      exact ⟨p, hp⟩
    · have hc' : lookupCar (modifyCar cars num (fun cc => { cc with race_position := i + 1 })) n = some c := by
        rw [lookupCar_modify, if_neg hn, hc]
      obtain ⟨p, hp⟩ := ih (i + 1) _ _ hc'
      exact ⟨p, hp⟩

/-- The per-car promotion applied by `update_race_finished`. -/
def promoteCar (laps : ℕ) (lap_length_km : ℚ) (tick : ℕ) (car : Car) : Car :=
  if car.status ≠ CarStatus.Finished ∧ laps ≤ car.lap then
    { car with
      status := CarStatus.Finished
      total_distance := (car.lap : ℚ) * lap_length_km
      finished_time := tick }
  else car

/-- `promoteCar` on an already finished car. -/
theorem promoteCar_finished (laps : ℕ) (len : ℚ) (tick : ℕ) (car : Car)
    (h : car.status = CarStatus.Finished) : promoteCar laps len tick car = car := by
  unfold promoteCar
  rw [if_neg (fun hh => hh.1 h)]

/-- `promoteCar` on a car short of the lap total. -/
theorem promoteCar_low (laps : ℕ) (len : ℚ) (tick : ℕ) (car : Car)
    (h : car.lap < laps) : promoteCar laps len tick car = car := by
  unfold promoteCar
  rw [if_neg (fun hh => absurd hh.2 (Nat.not_le.mpr h))]

/-- The cars component of `finishScan` is the pointwise promotion. -/
theorem finishScan_cars (laps : ℕ) (lap_length_km : ℚ) (tick : ℕ) (dt : ℚ)
    (nf : ℕ) (cars : List (ℕ × Car)) :
    (finishScan laps lap_length_km tick dt nf cars).cars
      = cars.map (fun kc => (kc.1, promoteCar laps lap_length_km tick kc.2)) := by
  induction cars with
  | nil => rfl
  | cons kc rest ih =>
    simp only [finishScan, List.map_cons]
    by_cases h1 : kc.2.status = CarStatus.Finished
    · rw [if_pos h1]
      rw [show (kc.1, promoteCar laps lap_length_km tick kc.2) = kc by
        rw [promoteCar_finished _ _ _ _ h1]]
      simp only [ih]
    · rw [if_neg h1]
      by_cases h2 : laps ≤ kc.2.lap
      · rw [if_pos h2]
        simp only [promoteCar, if_pos (And.intro h1 h2), ih]
      · rw [if_neg h2]
        rw [show (kc.1, promoteCar laps lap_length_km tick kc.2) = kc by
          rw [promoteCar_low _ _ _ _ (Nat.lt_of_not_le h2)]]
        by_cases h3 : kc.2.status = CarStatus.Racing ∨ kc.2.status = CarStatus.Pit
        · rw [if_pos h3]
          simp only [ih]
        · rw [if_neg h3]
          simp only [ih]

/-- `finishScan` counts at most one completion per car. -/
theorem finishScan_tot_le (laps : ℕ) (lap_length_km : ℚ) (tick : ℕ) (dt : ℚ)
    (nf : ℕ) (cars : List (ℕ × Car)) :
    (finishScan laps lap_length_km tick dt nf cars).tot_done ≤ cars.length := by
  induction cars with
  | nil => simp [finishScan]
  | cons kc rest ih =>
    simp only [finishScan, List.length_cons]
    split
    · simpa using Nat.add_le_add_right ih 1
    · split
      · simpa using Nat.add_le_add_right ih 1
      · split
        · simpa using Nat.le_succ_of_le ih
        · simpa using Nat.add_le_add_right ih 1

/-- With a Racing-or-Pit car short of the lap total present, the finish
scan reports the race unfinished and strictly fewer completions than cars. -/
theorem finishScan_active (laps : ℕ) (lap_length_km : ℚ) (tick : ℕ) (dt : ℚ)
    (nf : ℕ) (cars : List (ℕ × Car)) (k : ℕ) (c : Car)
    (hmem : (k, c) ∈ cars) (hst : c.status = CarStatus.Racing ∨ c.status = CarStatus.Pit)
    (hlap : c.lap < laps) :
    (finishScan laps lap_length_km tick dt nf cars).race_finished = false
      ∧ (finishScan laps lap_length_km tick dt nf cars).tot_done < cars.length := by
  induction cars with
  | nil => cases hmem
  | cons kc rest ih =>
    have hle := finishScan_tot_le laps lap_length_km tick dt nf rest
    rcases List.mem_cons.mp hmem with heq | hmem2
    · have hstat : kc.2.status = CarStatus.Racing ∨ kc.2.status = CarStatus.Pit := by
        rw [← heq]
        exact hst
      have hlap2 : kc.2.lap < laps := by
        rw [← heq]
        exact hlap
      have h1 : ¬ kc.2.status = CarStatus.Finished := by
        rcases hstat with h | h <;> simp [h]
      simp only [finishScan, List.length_cons]
      rw [if_neg h1, if_neg (Nat.not_le.mpr hlap2), if_pos hstat]
      exact ⟨rfl, Nat.lt_succ_of_le hle⟩
    · obtain ⟨hrf, hlt⟩ := ih hmem2
      simp only [finishScan, List.length_cons]
      split
      · exact ⟨hrf, Nat.succ_lt_succ hlt⟩
      · split
        · exact ⟨hrf, Nat.succ_lt_succ hlt⟩
        · split
          · exact ⟨rfl, Nat.lt_succ_of_lt hlt⟩
          · exact ⟨hrf, Nat.succ_lt_succ hlt⟩

/-- A successful keyed lookup is a membership. -/
theorem lookupCar_mem (cars : List (ℕ × Car)) (n : ℕ) (c : Car)
    (h : lookupCar cars n = some c) : (n, c) ∈ cars := by
  unfold lookupCar at h
  cases hf : cars.find? (fun kc => kc.1 = n) with
  | none => rw [hf] at h; exact Option.noConfusion h
  | some kc =>
    rw [hf] at h
    have hkc : kc.2 = c := Option.some_inj.mp h
    have hpred := List.find?_some hf
    have hmem := List.mem_of_find?_eq_some hf
    have hk : kc.1 = n := by simpa using hpred
    have : kc = (n, c) := by
      rw [← hk, ← hkc]
    rw [← this]
    exact hmem

/-- `promoteCar` commutes with overwriting `race_position`. -/
theorem promoteCar_racePos (laps : ℕ) (len : ℚ) (tick : ℕ) (x : Car) (p : ℕ) :
    promoteCar laps len tick { x with race_position := p }
      = { promoteCar laps len tick x with race_position := p } := by
  unfold promoteCar
  by_cases h : x.status ≠ CarStatus.Finished ∧ laps ≤ x.lap
  · rw [if_pos h, if_pos h]
  · rw [if_neg h, if_neg h]

/-- The car transformation a tick applies before ordering and finish
detection (the value `(step kc.2).1` inside `RaceState.update`). -/
def tickStepCar (expF : ℚ → ℚ) (s : RaceState) : Car → Car := fun c =>
  (processCar expF
    (update_weather_track s.track (((s.tick_count + 1 : ℕ) : ℚ) * s.tick_duration_seconds)
      s.tick_duration_seconds)
    s.run_state (s.tick_count + 1) s.tick_duration_seconds (countFinished s.cars) c).1

/-- The per-car map of a tick (`cars1` inside `RaceState.update`). -/
def tickCars (expF : ℚ → ℚ) (s : RaceState) : List (ℕ × Car) :=
  s.cars.map (fun kc => (kc.1, tickStepCar expF s kc.2))

/-- The sorted car numbers of a tick (`car_numbers` inside `RaceState.update`). -/
def tickOrdered (expF : ℚ → ℚ) (s : RaceState) : List ℕ :=
  List.map Car.number (((tickCars expF s).map Prod.snd).mergeSort
    (fun a b => compare_cars a b ≠ Ordering.gt))

/-- The position-assigned cars of a tick (`cars2` inside `RaceState.update`). -/
def tickAssigned (expF : ℚ → ℚ) (s : RaceState) : List (ℕ × Car) :=
  assignPositions (tickCars expF s) (tickOrdered expF s)

/-- The events pushed by the per-car loop of a tick. -/
def tickPendEvents (expF : ℚ → ℚ) (s : RaceState) : List PendingEvent :=
  (s.cars.map (fun kc =>
    (processCar expF
      (update_weather_track s.track (((s.tick_count + 1 : ℕ) : ℚ) * s.tick_duration_seconds)
        s.tick_duration_seconds)
      s.run_state (s.tick_count + 1) s.tick_duration_seconds (countFinished s.cars)
      kc.2).2)).flatten

/-- `update_weather_track` changes only the wetness. -/
theorem update_weather_track_laps (t : Track) (a b : ℚ) :
    (update_weather_track t a b).laps = t.laps := rfl

/-- `update_weather_track` changes only the wetness. -/
theorem update_weather_track_lap_length (t : Track) (a b : ℚ) :
    (update_weather_track t a b).lap_length_km = t.lap_length_km := rfl

/-- A running tick is the finish scan applied to the weather-updated,
ticked, position-assigned state. -/
theorem update_eq_of_running (expF : ℚ → ℚ) (s : RaceState)
    (hrun : s.run_state = RaceRunState.Running ∨ s.run_state = RaceRunState.LastLap) :
    s.update expF = update_race_finished { s with
      track := update_weather_track s.track
        (((s.tick_count + 1 : ℕ) : ℚ) * s.tick_duration_seconds) s.tick_duration_seconds
      tick_count := s.tick_count + 1
      cars := tickAssigned expF s
      events := appendPending s.events (tickPendEvents expF s) } := by
  have hguard : ¬ (s.run_state ≠ RaceRunState.Running
      ∧ s.run_state ≠ RaceRunState.LastLap) := by
    rcases hrun with h | h <;> simp [h]
  unfold RaceState.update
  rw [if_neg hguard]
  rfl

/-- What one tick does to the car stored under key `n`: the per-car step,
then a `race_position` overwrite from the ordering, then the finish-scan
promotion. -/
theorem update_lookup (expF : ℚ → ℚ) (s : RaceState)
    (hrun : s.run_state = RaceRunState.Running ∨ s.run_state = RaceRunState.LastLap)
    (n : ℕ) (c : Car) (hc : lookupCar s.cars n = some c) :
    ∃ p, lookupCar (s.update expF).cars n
        = some { promoteCar s.track.laps s.track.lap_length_km (s.tick_count + 1)
            (tickStepCar expF s c) with race_position := p }
      ∧ lookupCar (tickAssigned expF s) n
        = some { tickStepCar expF s c with race_position := p } := by
  have hc1 : lookupCar (tickCars expF s) n = some (tickStepCar expF s c) := by
    unfold tickCars
    rw [lookupCar_map, hc]
    rfl
  obtain ⟨p, hp⟩ := assignAux_lookup (tickOrdered expF s) 0 (tickCars expF s) n _ hc1
  have hp' : lookupCar (tickAssigned expF s) n
      = some { tickStepCar expF s c with race_position := p } := hp
  refine ⟨p, ?_, hp'⟩
  rw [update_eq_of_running expF s hrun]
  unfold update_race_finished
  show lookupCar (finishScan _ _ _ _ _ (tickAssigned expF s)).cars n = _
  rw [finishScan_cars, lookupCar_map]
  show Option.map (promoteCar (update_weather_track s.track
      (((s.tick_count + 1 : ℕ) : ℚ) * s.tick_duration_seconds)
      s.tick_duration_seconds).laps (update_weather_track s.track
      (((s.tick_count + 1 : ℕ) : ℚ) * s.tick_duration_seconds)
      s.tick_duration_seconds).lap_length_km (s.tick_count + 1))
      (lookupCar (tickAssigned expF s) n) = _
  rw [update_weather_track_laps, update_weather_track_lap_length, hp']
  show some (promoteCar s.track.laps s.track.lap_length_km (s.tick_count + 1)
      { tickStepCar expF s c with race_position := p }) = _
  rw [promoteCar_racePos]

/-- The Pit branch of the per-car tick with time remaining: slow to 30,
decrement the counter, change nothing else. -/
theorem processCar_pit_countdown (expF : ℚ → ℚ) (track : Track)
    (run_state : RaceRunState) (tick : ℕ) (dt : ℚ) (nf : ℕ) (car : Car)
    (hst : car.status = CarStatus.Pit) (hptr : 0 < car.pit_time_remaining) :
    processCar expF track run_state tick dt nf car
      = ({ car with speed := 30, pit_time_remaining := car.pit_time_remaining - 1 }, []) := by
  have hne : ¬ (car.status = CarStatus.Dnf ∨ car.status = CarStatus.Finished) := by
    rw [hst]
    rintro (h | h) <;> exact CarStatus.noConfusion h
  unfold processCar
  rw [if_neg hne, if_pos hst]
  simp only []
  rw [if_pos (show 0 < ({ car with speed := (30 : ℚ) } : Car).pit_time_remaining from hptr)]

/-- The pit-completion transformation of the Pit branch: apply the tire and
fuel targets and return to Racing (`models/race.rs` lines 806–820). -/
def pitDone (car0 : Car) : Car :=
  let car := { car0 with speed := (30 : ℚ) }
  let car1 :=
    match car.target_tire with
    | some new_tire_type =>
        { car with tire := { type_ := new_tire_type, wear := 0 }, target_tire := none }
    | none => car
  let car2 :=
    match car1.target_fuel with
    | some new_fuel_level =>
        { car1 with fuel := max (min new_fuel_level 100) car1.fuel, target_fuel := none }
    | none => car1
  { car2 with status := CarStatus.Racing }

/-- The Pit branch with no time remaining is exactly `pitDone`. -/
theorem processCar_pit_done (expF : ℚ → ℚ) (track : Track)
    (run_state : RaceRunState) (tick : ℕ) (dt : ℚ) (nf : ℕ) (car : Car)
    (hst : car.status = CarStatus.Pit) (hptr : car.pit_time_remaining = 0) :
    processCar expF track run_state tick dt nf car = (pitDone car, []) := by
  have hne : ¬ (car.status = CarStatus.Dnf ∨ car.status = CarStatus.Finished) := by
    rw [hst]
    rintro (h | h) <;> exact CarStatus.noConfusion h
  unfold processCar pitDone
  rw [if_neg hne, if_pos hst]
  simp only []
  rw [if_neg (show ¬ 0 < ({ car with speed := (30 : ℚ) } : Car).pit_time_remaining by
    show ¬ 0 < car.pit_time_remaining
    rw [hptr]
    exact lt_irrefl 0)]

/-- What `pitDone` does to the fields the claims talk about. -/
theorem pitDone_spec (car : Car) :
    (pitDone car).status = CarStatus.Racing
      ∧ (pitDone car).lap = car.lap
      ∧ (pitDone car).lap_percentage = car.lap_percentage
      ∧ (pitDone car).pit_time_remaining = car.pit_time_remaining
      ∧ car.fuel ≤ (pitDone car).fuel
      ∧ (∀ t, car.target_tire = some t → (pitDone car).tire = { type_ := t, wear := 0 })
      ∧ (car.target_tire = none → (pitDone car).tire = car.tire) := by
  refine ⟨?_, ?_, ?_, ?_, ?_, ?_, ?_⟩ <;>
    unfold pitDone <;>
    cases ht : car.target_tire <;> cases hf : car.target_fuel <;>
    simp [ht, hf] <;>
    first
      | exact le_max_right _ _
      | rfl
      | (intro t htt; cases htt; rfl)
      | (intro htt; rfl)

/-- A running tick keeps the lap total of the track. -/
theorem update_track_laps (expF : ℚ → ℚ) (s : RaceState)
    (hrun : s.run_state = RaceRunState.Running ∨ s.run_state = RaceRunState.LastLap) :
    (s.update expF).track.laps = s.track.laps := by
  rw [update_eq_of_running expF s hrun]
  rfl

/-- The run-state formula of `update_race_finished`, unfolded. -/
theorem update_race_finished_run_state (s1 : RaceState) :
    (update_race_finished s1).run_state
      = (if (finishScan s1.track.laps s1.track.lap_length_km s1.tick_count
            s1.tick_duration_seconds (countFinished s1.cars) s1.cars).tot_done
            = s1.cars.length then RaceRunState.Finished
         else if (finishScan s1.track.laps s1.track.lap_length_km s1.tick_count
            s1.tick_duration_seconds (countFinished s1.cars) s1.cars).someone_finished
         then (if (finishScan s1.track.laps s1.track.lap_length_km s1.tick_count
            s1.tick_duration_seconds (countFinished s1.cars) s1.cars).race_finished
            then RaceRunState.Finished else RaceRunState.LastLap)
         else s1.run_state) := rfl

/-- With an unfinished Racing-or-Pit car on board, `update_race_finished`
keeps the race live: the run state stays Running or becomes LastLap. -/
theorem update_race_finished_active (s1 : RaceState) (k : ℕ) (c : Car)
    (hmem : (k, c) ∈ s1.cars)
    (hst : c.status = CarStatus.Racing ∨ c.status = CarStatus.Pit)
    (hlap : c.lap < s1.track.laps)
    (hrun : s1.run_state = RaceRunState.Running ∨ s1.run_state = RaceRunState.LastLap) :
    (update_race_finished s1).run_state = RaceRunState.Running
      ∨ (update_race_finished s1).run_state = RaceRunState.LastLap := by
  obtain ⟨hrf, hlt⟩ := finishScan_active s1.track.laps s1.track.lap_length_km
    s1.tick_count s1.tick_duration_seconds (countFinished s1.cars) s1.cars k c hmem hst hlap
  rw [update_race_finished_run_state]
  rw [if_neg (Nat.ne_of_lt hlt)]
  by_cases hs : (finishScan s1.track.laps s1.track.lap_length_km s1.tick_count
      s1.tick_duration_seconds (countFinished s1.cars) s1.cars).someone_finished = true
  · rw [if_pos hs, hrf]
    right
    rfl
  · rw [if_neg hs]
    exact hrun

/-- One tick on a car mid-pit-stop: the counter drops by one, the car stays
in Pit, the race stays live. -/
theorem update_pit_step (expF : ℚ → ℚ) (s : RaceState) (n : ℕ) (c : Car)
    (hrun : s.run_state = RaceRunState.Running ∨ s.run_state = RaceRunState.LastLap)
    (hc : lookupCar s.cars n = some c) (hst : c.status = CarStatus.Pit)
    (hptr : 0 < c.pit_time_remaining) (hlap : c.lap < s.track.laps) :
    (∃ c', lookupCar (s.update expF).cars n = some c'
        ∧ c'.status = CarStatus.Pit
        ∧ c'.pit_time_remaining = c.pit_time_remaining - 1
        ∧ c'.lap = c.lap
        ∧ c'.target_tire = c.target_tire
        ∧ c'.target_fuel = c.target_fuel
        ∧ c'.fuel = c.fuel
        ∧ c'.tire = c.tire)
      ∧ (s.update expF).track.laps = s.track.laps
      ∧ ((s.update expF).run_state = RaceRunState.Running
          ∨ (s.update expF).run_state = RaceRunState.LastLap) := by
  obtain ⟨p, h1, h2⟩ := update_lookup expF s hrun n c hc
  have hstep : tickStepCar expF s c
      = { c with speed := 30, pit_time_remaining := c.pit_time_remaining - 1 } :=
    congrArg Prod.fst (processCar_pit_countdown expF
      (update_weather_track s.track (((s.tick_count + 1 : ℕ) : ℚ) * s.tick_duration_seconds)
        s.tick_duration_seconds)
      s.run_state (s.tick_count + 1) s.tick_duration_seconds (countFinished s.cars) c hst hptr)
  rw [hstep] at h1 h2
  rw [promoteCar_low s.track.laps s.track.lap_length_km (s.tick_count + 1)
    { c with speed := 30, pit_time_remaining := c.pit_time_remaining - 1 }
    (show ({ c with speed := (30 : ℚ), pit_time_remaining := c.pit_time_remaining - 1 } : Car).lap
        < s.track.laps from hlap)] at h1
  refine ⟨⟨_, h1, hst, rfl, rfl, rfl, rfl, rfl, rfl⟩, update_track_laps expF s hrun, ?_⟩
  rw [update_eq_of_running expF s hrun]
  refine update_race_finished_active _ n _ (lookupCar_mem _ _ _ h2) (Or.inr hst) ?_ hrun
  exact hlap

/-- One tick on a car whose pit stop has run out: back to Racing, fuel no
lower than before, tire renewed exactly when a target tire was set. -/
theorem update_pit_done_step (expF : ℚ → ℚ) (s : RaceState) (n : ℕ) (c : Car)
    (hrun : s.run_state = RaceRunState.Running ∨ s.run_state = RaceRunState.LastLap)
    (hc : lookupCar s.cars n = some c) (hst : c.status = CarStatus.Pit)
    (hptr : c.pit_time_remaining = 0) (hlap : c.lap < s.track.laps) :
    ∃ c', lookupCar (s.update expF).cars n = some c'
      ∧ c'.status = CarStatus.Racing
      ∧ c.fuel ≤ c'.fuel
      ∧ (∀ t, c.target_tire = some t → c'.tire = { type_ := t, wear := 0 })
      ∧ (c.target_tire = none → c'.tire = c.tire) := by
  obtain ⟨p, h1, h2⟩ := update_lookup expF s hrun n c hc
  have hstep : tickStepCar expF s c = pitDone c :=
    congrArg Prod.fst (processCar_pit_done expF
      (update_weather_track s.track (((s.tick_count + 1 : ℕ) : ℚ) * s.tick_duration_seconds)
        s.tick_duration_seconds)
      s.run_state (s.tick_count + 1) s.tick_duration_seconds (countFinished s.cars) c hst hptr)
  obtain ⟨hps, hpl, _, _, hpf, hpt, hptn⟩ := pitDone_spec c
  rw [hstep] at h1
  rw [promoteCar_low s.track.laps s.track.lap_length_km (s.tick_count + 1)
    (pitDone c) (by rw [hpl]; exact hlap)] at h1
  exact ⟨_, h1, hps, hpf, fun t ht => hpt t ht, fun ht => hptn ht⟩

/-- Iterated ticks while the pit counter lasts: after `j ≤ counter` ticks
the car is still in Pit with `counter − j` remaining and the race is live. -/
theorem update_pit_iterate (expF : ℚ → ℚ) (j : ℕ) :
    ∀ (s : RaceState) (n : ℕ) (c : Car),
    (s.run_state = RaceRunState.Running ∨ s.run_state = RaceRunState.LastLap) →
    lookupCar s.cars n = some c → c.status = CarStatus.Pit → c.lap < s.track.laps →
    j ≤ c.pit_time_remaining →
    ∃ c', lookupCar (((RaceState.update expF)^[j]) s).cars n = some c'
      ∧ c'.status = CarStatus.Pit
      ∧ c'.pit_time_remaining = c.pit_time_remaining - j
      ∧ c'.lap < (((RaceState.update expF)^[j]) s).track.laps
      ∧ ((((RaceState.update expF)^[j]) s).run_state = RaceRunState.Running
          ∨ (((RaceState.update expF)^[j]) s).run_state = RaceRunState.LastLap) := by
  induction j with
  | zero =>
    intro s n c hrun hc hst hlap hj
    exact ⟨c, by simpa using hc, hst, rfl, by simpa using hlap, by simpa using hrun⟩
  | succ j ih =>
    intro s n c hrun hc hst hlap hj
    have hptr : 0 < c.pit_time_remaining := Nat.lt_of_lt_of_le (Nat.succ_pos j) hj
    obtain ⟨⟨c1, h1, hst1, hptr1, hlap1, _, _, _, _⟩, hlaps, hrun1⟩ :=
      update_pit_step expF s n c hrun hc hst hptr hlap
    rw [Function.iterate_succ_apply]
    obtain ⟨c', H1, H2, H3, H4, H5⟩ := ih (s.update expF) n c1 hrun1 h1 hst1
      (by rw [hlap1, hlaps]; exact hlap) (by omega)
    exact ⟨c', H1, H2, by omega, H4, H5⟩

/-! ## C4: pit-stop duration; C3: pit-stop effects -/

/-- A concrete car that has just entered the pit
(`status = Pit`, `pit_time_remaining = 50`). -/
def pitCar : Car :=
  { sampleCar with
    status := CarStatus.Pit
    pit_time_remaining := 50
    target_tire := some TireType.Soft
    target_fuel := some 50
    fuel := 40 }

/-- A running one-car state whose car 1 has just entered the pit. -/
def pitState : RaceState :=
  { sampleState with cars := [(1, pitCar)] }

/-- C4 (counterexample): 50 ticks after entering Pit with
`pit_time_remaining = 50`, the car is STILL in Pit (with 0 remaining), not
back to Racing as the claim states: the source checks the counter before
decrementing, so the stop spans 51 ticks. -/
theorem pit_fifty_ticks_still_pit :
    ∃ c', lookupCar (((RaceState.update oneExp)^[50]) pitState).cars 1 = some c'
      ∧ c'.status = CarStatus.Pit ∧ c'.pit_time_remaining = 0 := by
  obtain ⟨c', h1, h2, h3, _, _⟩ := update_pit_iterate oneExp 50 pitState 1 pitCar
    (Or.inl rfl) rfl rfl (by decide) (by decide)
  exact ⟨c', h1, h2, h3⟩

/-- C4 (amended): a car that is in Pit with `pit_time_remaining = 50` (the
value set on pit entry) is still in Pit after every `j ≤ 50` further ticks,
with `50 − j` remaining, and returns to Racing on the 51st tick: a pit stop
lasts 51 ticks of Pit status, not 50. -/
theorem pit_duration_51 (expF : ℚ → ℚ) (s : RaceState) (n : ℕ) (c : Car)
    (hrun : s.run_state = RaceRunState.Running ∨ s.run_state = RaceRunState.LastLap)
    (hc : lookupCar s.cars n = some c) (hst : c.status = CarStatus.Pit)
    (hptr : c.pit_time_remaining = 50) (hlap : c.lap < s.track.laps) :
    (∀ j, j ≤ 50 →
        ∃ c', lookupCar (((RaceState.update expF)^[j]) s).cars n = some c'
          ∧ c'.status = CarStatus.Pit ∧ c'.pit_time_remaining = 50 - j)
      ∧ (∃ c', lookupCar (((RaceState.update expF)^[51]) s).cars n = some c'
          ∧ c'.status = CarStatus.Racing) := by
  constructor
  · intro j hj
    obtain ⟨c', h1, h2, h3, _, _⟩ :=
      update_pit_iterate expF j s n c hrun hc hst hlap (by omega)
    exact ⟨c', h1, h2, by omega⟩
  · obtain ⟨c', h1, h2, h3, h4, h5⟩ :=
      update_pit_iterate expF 50 s n c hrun hc hst hlap (by omega)
    have h51 : ((RaceState.update expF)^[51]) s
        = RaceState.update expF (((RaceState.update expF)^[50]) s) :=
      Function.iterate_succ_apply' (RaceState.update expF) 50 s
    obtain ⟨c2, H1, H2, _, _, _⟩ := update_pit_done_step expF
      (((RaceState.update expF)^[50]) s) n c' h5 h1 h2 (by omega) h4
    exact ⟨c2, by rw [h51]; exact H1, H2⟩

/-- C4 witness at the concrete just-entered-pit state. -/
theorem pit_duration_51_witness :
    (∀ j, j ≤ 50 →
        ∃ c', lookupCar (((RaceState.update oneExp)^[j]) pitState).cars 1 = some c'
          ∧ c'.status = CarStatus.Pit ∧ c'.pit_time_remaining = 50 - j)
      ∧ (∃ c', lookupCar (((RaceState.update oneExp)^[51]) pitState).cars 1 = some c'
          ∧ c'.status = CarStatus.Racing) :=
  pit_duration_51 oneExp pitState 1 pitCar (Or.inl rfl) rfl rfl rfl (by decide)

/-- A concrete car whose pit stop completes this tick with no target tire:
its worn tire must survive the stop. -/
def pitDoneCar : Car :=
  { sampleCar with
    status := CarStatus.Pit
    pit_time_remaining := 0
    target_tire := none
    target_fuel := none
    tire := { type_ := TireType.Medium, wear := 50 }
    fuel := 60 }

/-- A running one-car state around `pitDoneCar`. -/
def pitDoneState : RaceState :=
  { sampleState with cars := [(1, pitDoneCar)] }

/-- C3 (counterexample): a pit stop that completes with `target_tire = none`
(e.g. one requested by `pit 1` with no tire argument) returns the car to
Racing with its tire wear UNCHANGED at 50, not reset to 0. -/
theorem pit_complete_no_tire_wear_kept :
    ∃ c', lookupCar (pitDoneState.update oneExp).cars 1 = some c'
      ∧ c'.status = CarStatus.Racing
      ∧ c'.tire.wear = 50 := by
  obtain ⟨c', h1, h2, _, _, h5⟩ := update_pit_done_step oneExp pitDoneState 1 pitDoneCar
    (Or.inl rfl) rfl rfl rfl (by decide)
  refine ⟨c', h1, h2, ?_⟩
  rw [h5 rfl]
  rfl

/-- C3 (amended): when a pit stop completes (Pit with no time remaining,
lap total not yet reached), the car returns to Racing with fuel at least its
pre-stop level; its tire is renewed (`wear = 0`) exactly when a target tire
was set, and kept unchanged when `target_tire = none`. -/
theorem pit_complete_effects (expF : ℚ → ℚ) (s : RaceState) (n : ℕ) (c : Car)
    (hrun : s.run_state = RaceRunState.Running ∨ s.run_state = RaceRunState.LastLap)
    (hc : lookupCar s.cars n = some c) (hst : c.status = CarStatus.Pit)
    (hptr : c.pit_time_remaining = 0) (hlap : c.lap < s.track.laps) :
    ∃ c', lookupCar (s.update expF).cars n = some c'
      ∧ c'.status = CarStatus.Racing
      ∧ c.fuel ≤ c'.fuel
      ∧ (∀ t, c.target_tire = some t → c'.tire = { type_ := t, wear := 0 })
      ∧ (c.target_tire = none → c'.tire = c.tire) :=
  update_pit_done_step expF s n c hrun hc hst hptr hlap

/-- A concrete car whose pit stop completes this tick with a target tire and
target fuel set. -/
def pitTireCar : Car :=
  { sampleCar with
    status := CarStatus.Pit
    pit_time_remaining := 0
    target_tire := some TireType.Soft
    target_fuel := some 80
    tire := { type_ := TireType.Medium, wear := 70 }
    fuel := 30 }

/-- A running one-car state around `pitTireCar`. -/
def pitTireState : RaceState :=
  { sampleState with cars := [(1, pitTireCar)] }

/-- C3 witness at the concrete completing-pit state with a target tire. -/
theorem pit_complete_effects_witness :
    ∃ c', lookupCar (pitTireState.update oneExp).cars 1 = some c'
      ∧ c'.status = CarStatus.Racing
      ∧ pitTireCar.fuel ≤ c'.fuel
      ∧ (∀ t, pitTireCar.target_tire = some t → c'.tire = { type_ := t, wear := 0 })
      ∧ (pitTireCar.target_tire = none → c'.tire = pitTireCar.tire) :=
  pit_complete_effects oneExp pitTireState 1 pitTireCar (Or.inl rfl) rfl rfl rfl (by decide)

/-! ## Per-car tick analysis (C5, C9) -/

/-- The lap-completion loop never sets Dnf: a Dnf output means a Dnf input. -/
theorem lapLoopAux_status_dnf (laps : ℕ) (rs : RaceRunState) (tick : ℕ) (dt : ℚ)
    (nf : ℕ) (fuel : ℕ) :
    ∀ car : Car, (lapLoopAux laps rs tick dt nf fuel car).1.status = CarStatus.Dnf →
      car.status = CarStatus.Dnf := by
  induction fuel with
  | zero =>
    intro car h
    exact h
  | succ fuel ih =>
    intro car h
    unfold lapLoopAux at h
    by_cases hg : 1 ≤ car.lap_percentage
    · rw [if_pos hg] at h
      simp only [] at h
      by_cases hlast : rs = RaceRunState.LastLap
      · rw [if_pos hlast] at h
        by_cases hpit : (lapFinishCar tick (lapCompleteCar car)).pit_request = true
            ∧ (lapFinishCar tick (lapCompleteCar car)).lap < laps
        · rw [if_pos hpit] at h
          exact CarStatus.noConfusion
            (show CarStatus.Pit = CarStatus.Dnf from ih _ h)
        · rw [if_neg hpit] at h
          exact CarStatus.noConfusion
            (show CarStatus.Finished = CarStatus.Dnf from ih _ h)
      · rw [if_neg hlast] at h
        by_cases hpit : (lapCompleteCar car).pit_request = true
            ∧ (lapCompleteCar car).lap < laps
        · rw [if_pos hpit] at h
          exact CarStatus.noConfusion
            (show CarStatus.Pit = CarStatus.Dnf from ih _ h)
        · rw [if_neg hpit] at h
          exact ih (lapCompleteCar car) h
    · rw [if_neg hg] at h
      exact h

/-- `lapLoop` never sets Dnf. -/
theorem lapLoop_status_dnf (laps : ℕ) (rs : RaceRunState) (tick : ℕ) (dt : ℚ)
    (nf : ℕ) (car : Car)
    (h : (lapLoop laps rs tick dt nf car).1.status = CarStatus.Dnf) :
    car.status = CarStatus.Dnf :=
  lapLoopAux_status_dnf laps rs tick dt nf _ car h

/-- The lap-completion loop never changes the car number. -/
theorem lapLoopAux_number (laps : ℕ) (rs : RaceRunState) (tick : ℕ) (dt : ℚ)
    (nf : ℕ) (fuel : ℕ) :
    ∀ car : Car, (lapLoopAux laps rs tick dt nf fuel car).1.number = car.number := by
  induction fuel with
  | zero =>
    intro car
    rfl
  | succ fuel ih =>
    intro car
    unfold lapLoopAux
    by_cases hg : 1 ≤ car.lap_percentage
    · rw [if_pos hg]
      simp only []
      by_cases hlast : rs = RaceRunState.LastLap
      · rw [if_pos hlast]
        by_cases hpit : (lapFinishCar tick (lapCompleteCar car)).pit_request = true
            ∧ (lapFinishCar tick (lapCompleteCar car)).lap < laps
        · rw [if_pos hpit]
          exact ih _
        · rw [if_neg hpit]
          exact ih _
      · rw [if_neg hlast]
        by_cases hpit : (lapCompleteCar car).pit_request = true
            ∧ (lapCompleteCar car).lap < laps
        · rw [if_pos hpit]
          exact ih _
        · rw [if_neg hpit]
          exact ih _
    · rw [if_neg hg]

/-- `lapLoop` never changes the car number. -/
theorem lapLoop_number (laps : ℕ) (rs : RaceRunState) (tick : ℕ) (dt : ℚ)
    (nf : ℕ) (car : Car) :
    (lapLoop laps rs tick dt nf car).1.number = car.number :=
  lapLoopAux_number laps rs tick dt nf _ car

/-- The AI step changes neither number, status, lap, fuel nor
finished time. -/
theorem aiStep_fields (tick : ℕ) (dt : ℚ) (wetness : ℚ) (laps : ℕ) (car : Car) :
    (aiStep tick dt wetness laps car).1.number = car.number
      ∧ (aiStep tick dt wetness laps car).1.status = car.status
      ∧ (aiStep tick dt wetness laps car).1.fuel = car.fuel
      ∧ (aiStep tick dt wetness laps car).1.finished_time = car.finished_time := by
  unfold aiStep
  simp only []
  by_cases hdp : (ai_pit_decision car wetness laps).pit = true
  · rw [if_pos hdp]
    by_cases hwr : car.pit_request = true
    · rw [if_pos hwr]
      exact ⟨rfl, rfl, rfl, rfl⟩
    · rw [if_neg hwr]
      exact ⟨rfl, rfl, rfl, rfl⟩
  · rw [if_neg hdp]
    exact ⟨rfl, rfl, rfl, rfl⟩

/-- The pre-lap physics step only touches speed and lap percentage. -/
theorem preLap_fields (expF : ℚ → ℚ) (track : Track) (dt : ℚ) (car : Car) :
    (preLap expF track dt car).number = car.number
      ∧ (preLap expF track dt car).status = car.status
      ∧ (preLap expF track dt car).fuel = car.fuel
      ∧ (preLap expF track dt car).finished_time = car.finished_time :=
  ⟨rfl, rfl, rfl, rfl⟩

/-- The post-lap tail keeps the car number. -/
theorem tailStep_number (tick : ℕ) (dt : ℚ) (track : Track) (car : Car) :
    (tailStep tick dt track car).1.number = car.number := by
  unfold tailStep
  simp only []
  split <;> split <;> first | rfl | (split <;> rfl)

/-- The post-lap tail either keeps status and finished time, or fires the
out-of-fuel Dnf branch (only from Racing, zero fuel, stamping the tick). -/
theorem tailStep_cases (tick : ℕ) (dt : ℚ) (track : Track) (car : Car) :
    ((tailStep tick dt track car).1.status = car.status
        ∧ (tailStep tick dt track car).1.finished_time = car.finished_time)
      ∨ ((tailStep tick dt track car).1.status = CarStatus.Dnf
          ∧ (tailStep tick dt track car).1.fuel = 0
          ∧ (tailStep tick dt track car).1.finished_time = tick
          ∧ car.status = CarStatus.Racing) := by
  unfold tailStep
  simp only []
  split <;> split <;>
    first
      | (rename_i hcond
         exact Or.inr ⟨rfl, hcond.1, rfl, hcond.2⟩)
      | (split <;> exact Or.inl ⟨rfl, rfl⟩)
      | exact Or.inl ⟨rfl, rfl⟩

/-- `processCar` on an already-Dnf car is the identity. -/
theorem processCar_dnf_id (expF : ℚ → ℚ) (track : Track) (rs : RaceRunState)
    (tick : ℕ) (dt : ℚ) (nf : ℕ) (car : Car) (hst : car.status = CarStatus.Dnf) :
    processCar expF track rs tick dt nf car = (car, []) := by
  unfold processCar
  rw [if_pos (Or.inl hst)]
  rw [if_neg (show ¬ car.status = CarStatus.Finished by
    rw [hst]
    exact fun hh => CarStatus.noConfusion hh)]

/-- `processCar` on a Finished car only re-pins the total distance. -/
theorem processCar_finished_eq (expF : ℚ → ℚ) (track : Track) (rs : RaceRunState)
    (tick : ℕ) (dt : ℚ) (nf : ℕ) (car : Car) (hst : car.status = CarStatus.Finished) :
    processCar expF track rs tick dt nf car
      = ({ car with total_distance := (car.lap : ℚ) * track.lap_length_km }, []) := by
  unfold processCar
  rw [if_pos (Or.inr hst), if_pos hst]

/-- `processCar` on a Racing car is the AI step, physics, lap loop and tail
composition. -/
theorem processCar_racing_eq (expF : ℚ → ℚ) (track : Track) (rs : RaceRunState)
    (tick : ℕ) (dt : ℚ) (nf : ℕ) (car : Car) (hst : car.status = CarStatus.Racing) :
    processCar expF track rs tick dt nf car
      = ((tailStep tick dt track
            (lapLoop track.laps rs tick dt nf
              (preLap expF track dt (aiStep tick dt track.wetness track.laps car).1)).1).1,
          (aiStep tick dt track.wetness track.laps car).2
            ++ (lapLoop track.laps rs tick dt nf
                  (preLap expF track dt (aiStep tick dt track.wetness track.laps car).1)).2
            ++ (tailStep tick dt track
                  (lapLoop track.laps rs tick dt nf
                    (preLap expF track dt (aiStep tick dt track.wetness track.laps car).1)).1).2) := by
  have h1 : ¬ (car.status = CarStatus.Dnf ∨ car.status = CarStatus.Finished) := by
    rw [hst]
    rintro (h | h) <;> exact CarStatus.noConfusion h
  have h2 : ¬ car.status = CarStatus.Pit := by
    rw [hst]
    exact fun hh => CarStatus.noConfusion hh
  unfold processCar
  rw [if_neg h1, if_neg h2]

/-- A car number is kept by the pit-completion transformation. -/
theorem pitDone_number (car : Car) : (pitDone car).number = car.number := by
  unfold pitDone
  cases ht : car.target_tire <;> cases hf : car.target_fuel <;> simp [ht, hf]

/-- The car number survives the whole per-car tick. -/
theorem processCar_number (expF : ℚ → ℚ) (track : Track) (rs : RaceRunState)
    (tick : ℕ) (dt : ℚ) (nf : ℕ) (car : Car) :
    (processCar expF track rs tick dt nf car).1.number = car.number := by
  cases hst : car.status
  · rw [processCar_racing_eq expF track rs tick dt nf car hst]
    simp only []
    rw [tailStep_number, lapLoop_number, (preLap_fields expF track dt _).1,
      (aiStep_fields tick dt track.wetness track.laps car).1]
  · rcases Nat.lt_or_ge 0 car.pit_time_remaining with hp | hp
    · rw [processCar_pit_countdown expF track rs tick dt nf car hst hp]
    · have hp0 : car.pit_time_remaining = 0 := Nat.le_antisymm hp (Nat.zero_le _)
      rw [processCar_pit_done expF track rs tick dt nf car hst hp0]
      exact pitDone_number car
  · rw [processCar_finished_eq expF track rs tick dt nf car hst]
  · rw [processCar_dnf_id expF track rs tick dt nf car hst]

/-- A tick turns a non-Dnf car into a Dnf car only by running it out of
fuel: the new car has zero fuel and `finished_time = tick`. -/
theorem processCar_to_dnf (expF : ℚ → ℚ) (track : Track) (rs : RaceRunState)
    (tick : ℕ) (dt : ℚ) (nf : ℕ) (car : Car)
    (h : car.status ≠ CarStatus.Dnf)
    (hd : (processCar expF track rs tick dt nf car).1.status = CarStatus.Dnf) :
    (processCar expF track rs tick dt nf car).1.fuel = 0
      ∧ (processCar expF track rs tick dt nf car).1.finished_time = tick := by
  cases hst : car.status
  · rw [processCar_racing_eq expF track rs tick dt nf car hst] at hd ⊢
    simp only [] at hd ⊢
    rcases tailStep_cases tick dt track
        (lapLoop track.laps rs tick dt nf
          (preLap expF track dt (aiStep tick dt track.wetness track.laps car).1)).1
      with ⟨hs1, hs2⟩ | ⟨hsd, hf, hft, hrc⟩
    · exfalso
      rw [hs1] at hd
      have h3 := lapLoopAux_status_dnf track.laps rs tick dt nf _ _ hd
      rw [(preLap_fields expF track dt _).2.1,
        (aiStep_fields tick dt track.wetness track.laps car).2.1, hst] at h3
      exact CarStatus.noConfusion h3
    · exact ⟨hf, hft⟩
  · exfalso
    rcases Nat.lt_or_ge 0 car.pit_time_remaining with hp | hp
    · rw [processCar_pit_countdown expF track rs tick dt nf car hst hp] at hd
      have : car.status = CarStatus.Dnf := hd
      rw [hst] at this
      exact CarStatus.noConfusion this
    · have hp0 : car.pit_time_remaining = 0 := Nat.le_antisymm hp (Nat.zero_le _)
      rw [processCar_pit_done expF track rs tick dt nf car hst hp0] at hd
      have : (pitDone car).status = CarStatus.Dnf := hd
      rw [(pitDone_spec car).1] at this
      exact CarStatus.noConfusion this
  · exfalso
    rw [processCar_finished_eq expF track rs tick dt nf car hst] at hd
    have : car.status = CarStatus.Dnf := hd
    rw [hst] at this
    exact CarStatus.noConfusion this
  · exact absurd hst h

/-- The finish-scan promotion is the identity or stamps Finished. -/
theorem promoteCar_cases (laps : ℕ) (len : ℚ) (tick : ℕ) (car : Car) :
    promoteCar laps len tick car = car
      ∨ (promoteCar laps len tick car).status = CarStatus.Finished := by
  unfold promoteCar
  split
  · right
    rfl
  · left
    rfl

/-- A tick Dnf-s a previously non-Dnf car only by fuel exhaustion, stamping
the new tick count as finished time. -/
theorem update_to_dnf (expF : ℚ → ℚ) (s : RaceState) (n : ℕ) (c : Car)
    (hrun : s.run_state = RaceRunState.Running ∨ s.run_state = RaceRunState.LastLap)
    (hc : lookupCar s.cars n = some c) (hnd : c.status ≠ CarStatus.Dnf) :
    ∀ c', lookupCar (s.update expF).cars n = some c' → c'.status = CarStatus.Dnf →
      c'.fuel = 0 ∧ c'.finished_time = s.tick_count + 1 := by
  intro c' hc' hd
  obtain ⟨p, h1, h2⟩ := update_lookup expF s hrun n c hc
  have hceq : c' = { promoteCar s.track.laps s.track.lap_length_km (s.tick_count + 1)
      (tickStepCar expF s c) with race_position := p } :=
    Option.some_inj.mp (hc'.symm.trans h1)
  rcases promoteCar_cases s.track.laps s.track.lap_length_km (s.tick_count + 1)
      (tickStepCar expF s c) with hpeq | hpf
  · rw [hpeq] at hceq
    have hxd : (tickStepCar expF s c).status = CarStatus.Dnf := by
      rw [hceq] at hd
      exact hd
    have hres := processCar_to_dnf expF
      (update_weather_track s.track (((s.tick_count + 1 : ℕ) : ℚ) * s.tick_duration_seconds)
        s.tick_duration_seconds)
      s.run_state (s.tick_count + 1) s.tick_duration_seconds (countFinished s.cars) c hnd hxd
    rw [hceq]
    exact ⟨hres.1, hres.2⟩
  · exfalso
    rw [hceq] at hd
    have hd2 : (promoteCar s.track.laps s.track.lap_length_km (s.tick_count + 1)
        (tickStepCar expF s c)).status = CarStatus.Dnf := hd
    rw [hpf] at hd2
    exact CarStatus.noConfusion hd2

/-- The `order <car> dnf` arm: the named car is set to Dnf and nothing else
on it changes — in particular `finished_time` is NOT stamped. -/
theorem order_dnf_command (s : RaceState) (n : ℕ) (c : Car) (w trimmed : String)
    (hw : parseU32 w = some n) (hc : lookupCar s.cars n = some c) :
    lookupCar (dispatchCommand ["order", w, "dnf"] trimmed s).1.cars n
      = some { c with status := CarStatus.Dnf } := by
  unfold dispatchCommand
  simp only [hw, hc]
  rw [show lowerString "dnf" = "dnf" from rfl]
  simp only []
  rw [lookupCar_modify, if_pos rfl, hc]
  rfl

/-- C5 (counterexample): `order 1 dnf` on the starting one-car state leaves
car 1 Dnf with `finished_time = 0` — a Dnf car whose finished time is NOT
greater than zero, against the claim's "in either case". -/
theorem order_dnf_no_timestamp :
    (lookupCar (handle_command "order 1 dnf" sampleState).1.cars 1).map
        (fun c => (c.status, c.finished_time))
      = some (CarStatus.Dnf, 0) := by
  decide

/-- C5 (amended): a previously non-Dnf car is Dnf after a tick only through
fuel exhaustion, with `fuel = 0` and `finished_time = tick_count + 1 > 0`;
the `order <car> dnf` command forces Dnf but changes nothing else on the
car — in particular it does NOT stamp `finished_time`, which can stay 0. -/
theorem dnf_sources (expF : ℚ → ℚ) (s : RaceState) (n : ℕ) (c : Car)
    (hrun : s.run_state = RaceRunState.Running ∨ s.run_state = RaceRunState.LastLap)
    (hc : lookupCar s.cars n = some c) (hnd : c.status ≠ CarStatus.Dnf) :
    (∀ c', lookupCar (s.update expF).cars n = some c' → c'.status = CarStatus.Dnf →
        c'.fuel = 0 ∧ c'.finished_time = s.tick_count + 1 ∧ 0 < c'.finished_time)
      ∧ (∀ w trimmed : String, parseU32 w = some n →
          lookupCar (dispatchCommand ["order", w, "dnf"] trimmed s).1.cars n
            = some { c with status := CarStatus.Dnf }) := by
  constructor
  · intro c' hc' hd
    obtain ⟨hf, hft⟩ := update_to_dnf expF s n c hrun hc hnd c' hc' hd
    refine ⟨hf, hft, ?_⟩
    rw [hft]
    exact Nat.succ_pos _
  · intro w trimmed hw
    exact order_dnf_command s n c w trimmed hw hc

/-- C5 witness at the starting one-car state. -/
theorem dnf_sources_witness :
    (∀ c', lookupCar (sampleState.update oneExp).cars 1 = some c' →
        c'.status = CarStatus.Dnf →
        c'.fuel = 0 ∧ c'.finished_time = sampleState.tick_count + 1
          ∧ 0 < c'.finished_time)
      ∧ (∀ w trimmed : String, parseU32 w = some 1 →
          lookupCar (dispatchCommand ["order", w, "dnf"] trimmed sampleState).1.cars 1
            = some { sampleCar with status := CarStatus.Dnf }) :=
  dnf_sources oneExp sampleState 1 sampleCar (Or.inl rfl) rfl (by decide)

/-! ## Race-position permutation (C9) -/

/-- The finish-scan promotion keeps `race_position`. -/
theorem promoteCar_position (laps : ℕ) (len : ℚ) (tick : ℕ) (car : Car) :
    (promoteCar laps len tick car).race_position = car.race_position := by
  unfold promoteCar
  split
  · rfl
  · rfl

/-- The race positions after a tick are those assigned from the sorted
order (the finish scan does not touch them). -/
theorem update_positions (expF : ℚ → ℚ) (s : RaceState)
    (hrun : s.run_state = RaceRunState.Running ∨ s.run_state = RaceRunState.LastLap) :
    (s.update expF).cars.map (fun kc => kc.2.race_position)
      = (tickAssigned expF s).map (fun kc => kc.2.race_position) := by
  rw [update_eq_of_running expF s hrun]
  unfold update_race_finished
  show ((finishScan _ _ _ _ _ (tickAssigned expF s)).cars).map _ = _
  rw [finishScan_cars, List.map_map]
  apply List.map_congr_left
  intro kc hkc
  show (promoteCar _ _ _ kc.2).race_position = kc.2.race_position
  exact promoteCar_position _ _ _ _

/-- The per-car tick map keeps the association-list keys. -/
theorem tickCars_fst (expF : ℚ → ℚ) (s : RaceState) :
    (tickCars expF s).map Prod.fst = s.cars.map Prod.fst := by
  unfold tickCars
  rw [List.map_map]
  rfl

/-- `modifyCar` keeps the association-list keys. -/
theorem modifyCar_fst (cars : List (ℕ × Car)) (m : ℕ) (f : Car → Car) :
    (modifyCar cars m f).map Prod.fst = cars.map Prod.fst := by
  unfold modifyCar
  rw [List.map_map]
  apply List.map_congr_left
  intro kc hkc
  by_cases h : kc.1 = m
  · simp [h]
  · simp [h]

/-- What the enumerated position-assignment pass writes: the car stored
under a key listed in `ordered` (no duplicates) gets position
`idx + index-in-ordered + 1`; all other cars keep their position. -/
theorem assignAux_rp (ordered : List ℕ) :
    ∀ (cars : List (ℕ × Car)) (idx : ℕ), ordered.Nodup →
    (assignPositionsAux cars ordered idx).map (fun kc => kc.2.race_position)
      = cars.map (fun kc =>
          if kc.1 ∈ ordered then idx + List.indexOf kc.1 ordered + 1
          else kc.2.race_position) := by
  induction ordered with
  | nil =>
    intro cars idx h
    simp [assignPositionsAux]
  | cons o rest ih =>
    intro cars idx h
    obtain ⟨ho, hrest⟩ := List.nodup_cons.mp h
    rw [show assignPositionsAux cars (o :: rest) idx
        = assignPositionsAux (modifyCar cars o (fun c => { c with race_position := idx + 1 }))
            rest (idx + 1) from rfl]
    rw [ih _ _ hrest]
    unfold modifyCar
    rw [List.map_map]
    apply List.map_congr_left
    intro kc hkc
    by_cases hko : kc.1 = o
    · have h1 : kc.1 ∉ rest := by
        rw [hko]
        exact ho
      simp only [Function.comp, if_pos hko, if_neg h1]
      rw [if_pos (show kc.1 ∈ o :: rest from by rw [hko]; exact List.mem_cons_self o rest)]
      rw [hko, List.indexOf_cons_self]
    · simp only [Function.comp, if_neg hko]
      by_cases hkr : kc.1 ∈ rest
      · rw [if_pos hkr, if_pos (List.mem_cons_of_mem o hkr)]
        rw [List.indexOf_cons_ne rest (fun hh => hko hh.symm)]
        omega
      · rw [if_neg hkr, if_neg (show kc.1 ∉ o :: rest from by
          rw [List.mem_cons]
          rintro (hh | hh)
          · exact hko hh
          · exact hkr hh)]

/-- Mapping a duplicate-free list through its own index function enumerates
`0, …, n−1`. -/
theorem nodup_map_indexOf (l : List ℕ) (h : l.Nodup) :
    l.map (fun k => List.indexOf k l) = List.range l.length := by
  induction l with
  | nil => rfl
  | cons a l ih =>
    obtain ⟨ha, hl⟩ := List.nodup_cons.mp h
    rw [List.map_cons, List.indexOf_cons_self, List.length_cons, List.range_succ_eq_map]
    have h2 : l.map (fun k => List.indexOf k (a :: l))
        = (l.map (fun k => List.indexOf k l)).map Nat.succ := by
      rw [List.map_map]
      apply List.map_congr_left
      intro k hk
      have hka : a ≠ k := fun hh => ha (hh ▸ hk)
      show List.indexOf k (a :: l) = (List.indexOf k l).succ
      exact List.indexOf_cons_ne l hka
    rw [h2, ih hl]

/-- C9: after a tick that runs (Running or LastLap), the `race_position`
values over the N cars are exactly `{1, …, N}` — the assignment pass writes
`index + 1` along the sorted car numbers, which enumerate every key once.
The two hypotheses state the `HashMap<u32, Car>` representation invariants:
keys are unique and each car is stored under its own number. -/
theorem race_positions_perm (expF : ℚ → ℚ) (s : RaceState)
    (hrun : s.run_state = RaceRunState.Running ∨ s.run_state = RaceRunState.LastLap)
    (hnodup : (s.cars.map Prod.fst).Nodup)
    (hnum : ∀ kc ∈ s.cars, kc.2.number = kc.1) :
    ((s.update expF).cars.map (fun kc => kc.2.race_position)).Perm
      ((List.range s.cars.length).map (fun i => i + 1)) := by
  have hmap : ((tickCars expF s).map Prod.snd).map Car.number = s.cars.map Prod.fst := by
    unfold tickCars
    rw [List.map_map, List.map_map]
    apply List.map_congr_left
    intro kc hkc
    show (tickStepCar expF s kc.2).number = kc.1
    rw [show (tickStepCar expF s kc.2).number = kc.2.number from
      processCar_number expF _ _ _ _ _ kc.2]
    exact hnum kc hkc
  have hperm : (tickOrdered expF s).Perm (s.cars.map Prod.fst) := by
    unfold tickOrdered
    have h1 : ((((tickCars expF s).map Prod.snd).mergeSort
        (fun a b => compare_cars a b ≠ Ordering.gt))).Perm
        ((tickCars expF s).map Prod.snd) := List.mergeSort_perm _ _
    have h2 := h1.map Car.number
    rw [hmap] at h2
    exact h2
  have hnodup2 : (tickOrdered expF s).Nodup := (List.Perm.nodup_iff hperm).mpr hnodup
  have hlen : (tickOrdered expF s).length = s.cars.length := by
    rw [hperm.length_eq, List.length_map]
  rw [update_positions expF s hrun]
  rw [show tickAssigned expF s
      = assignPositionsAux (tickCars expF s) (tickOrdered expF s) 0 from rfl]
  rw [assignAux_rp (tickOrdered expF s) (tickCars expF s) 0 hnodup2]
  have hall : ∀ kc ∈ tickCars expF s, kc.1 ∈ tickOrdered expF s := by
    intro kc hkc
    rw [hperm.mem_iff, ← tickCars_fst expF s]
    exact List.mem_map_of_mem Prod.fst hkc
  have hsimp : (tickCars expF s).map (fun kc =>
      if kc.1 ∈ tickOrdered expF s then 0 + List.indexOf kc.1 (tickOrdered expF s) + 1
      else kc.2.race_position)
      = ((tickCars expF s).map Prod.fst).map
          (fun k => List.indexOf k (tickOrdered expF s) + 1) := by
    rw [List.map_map]
    apply List.map_congr_left
    intro kc hkc
    rw [if_pos (hall kc hkc)]
    show 0 + List.indexOf kc.1 (tickOrdered expF s) + 1
        = List.indexOf kc.1 (tickOrdered expF s) + 1
    omega
  rw [hsimp, tickCars_fst]
  have hp2 : ((s.cars.map Prod.fst).map
      (fun k => List.indexOf k (tickOrdered expF s) + 1)).Perm
      ((tickOrdered expF s).map (fun k => List.indexOf k (tickOrdered expF s) + 1)) :=
    (hperm.symm).map _
  refine hp2.trans ?_
  rw [show (tickOrdered expF s).map (fun k => List.indexOf k (tickOrdered expF s) + 1)
      = ((tickOrdered expF s).map (fun k => List.indexOf k (tickOrdered expF s))).map
          (fun x => x + 1) from by
    rw [List.map_map]
    rfl]
  rw [nodup_map_indexOf _ hnodup2, hlen]

/-- C9 witness at the starting one-car state. -/
theorem race_positions_perm_witness :
    ((sampleState.update oneExp).cars.map (fun kc => kc.2.race_position)).Perm
      ((List.range sampleState.cars.length).map (fun i => i + 1)) :=
  race_positions_perm oneExp sampleState (Or.inl rfl) (by decide) (by decide)

end TinyRacing
